import Mathlib

/-!
Verification of the grafana-provisioner reconciliation engine.

This file gives a shallow embedding, in Lean 4, of the reconciliation core of
the `grafana-provisioner` Go program (packages `grafana`, `config`, `main`):

* the data model (`DataSource`, `FolderResponse`, `Dashboard`, raw dashboard
  JSON documents, the provisioning `Config`);
* the data-source reconciler `provisionDataSource` with its connection-identity
  match and its name-collision resolution loop;
* the folder reconciler (`CreateFolder`, `provisionFolders`);
* the dashboard reconciler (`getDashboardFolderUID`,
  `FindFirstDashboardByFolderAndName`, `processInputs`, `provisionDashboard`);
* the orchestrator `RunProvisioning`, closed over an idealized server model so
  that two consecutive runs can be compared.

HTTP transport is abstracted: a remote call is an oracle argument returning
`Except ApiError α`, where `ApiError` carries the HTTP status code of a
non-2xx response (the Go code extracts the status from the error text via
`strings.Contains(err.Error(), "Status 409")`; the embedding carries the
status directly, which is the information that check reads). Each embedded
function also returns the list of write requests it issued, so that theorems
can speak about which creation calls happen.

Machine integers (Go `int`) are embedded as `Int`; all record ids in play are
small and no overflow-relevant arithmetic occurs in the reconciler.
-/

namespace Grafana

/-- A data-source record. The Go code uses one struct `DataSource` both for
the desired specification coming from the configuration and for the records
observed on the server (`client.go`). -/
structure DataSource where
  id : Int := 0
  uid : String := ""
  name : String := ""
  type : String := ""
  url : String := ""
  user : String := ""
  password : String := ""
  sslMode : String := ""
  isDefault : Bool := false
  database : String := ""
deriving Repr, DecidableEq

/-- The JSON body POSTed to create a PostgreSQL data source
(`PostgreSQLDataSourceModel` in `client.go`). -/
structure PostgreSQLDataSourceModel where
  name : String
  type : String
  access : String
  url : String
  database : String
  user : String
  password : String
  sslMode : String
  isDefault : Bool
deriving Repr, DecidableEq

/-- The `datasource` object of a creation response
(`CreateDataSourceResponseDatasource`). -/
structure CreateDataSourceResponseDatasource where
  id : Int := 0
  uid : String := ""
  name : String := ""
  message : String := ""
deriving Repr, DecidableEq

/-- The creation response (`CreateDataSourceResponse`). -/
structure CreateDataSourceResponse where
  datasource : CreateDataSourceResponseDatasource
deriving Repr, DecidableEq

/-- An existing Grafana folder as returned by the API (`FolderResponse`). -/
structure FolderResponse where
  id : Int := 0
  uid : String := ""
  title : String := ""
  url : String := ""
deriving Repr, DecidableEq

/-- Runtime information about a provisioned folder (`FolderMapping`). -/
structure FolderMapping where
  id : Int := 0
  uid : String := ""
  title : String := ""
deriving Repr, DecidableEq

/-- A dashboard's configuration (`Dashboard` in the grafana package). -/
structure Dashboard where
  name : String := ""
  folder : String := ""
  file : String := ""
  dataSource : String := ""
  importVar : String := ""
deriving Repr, DecidableEq

/-- A configured folder (`Folder` in the grafana package). -/
structure Folder where
  name : String := ""
deriving Repr, DecidableEq

/-- An entry of the `/api/search` response (`DashboardSearchResponse`). -/
structure DashboardSearchResponse where
  id : Int := 0
  uid : String := ""
  title : String := ""
  type : String := ""
  folderId : Int := 0
  folderUID : String := ""
  folderTitle : String := ""
deriving Repr, DecidableEq

/-- An error from a remote API call, as classified by `doRequest`: a non-2xx
response carries the status code and the response body text; everything else
(transport failure, marshalling) is `other`. -/
inductive ApiError where
  | http (status : Nat) (body : String)
  | other (msg : String)
deriving Repr, DecidableEq

/-- The `strings.Contains(err.Error(), "Status 409")` test of the Go code: the
error text produced by `doRequest` contains `Status N` for exactly the status
`N` of the failing response. -/
def is409 : ApiError → Bool
  | .http status _ => status == 409
  | .other _ => false

/-- Render an `ApiError` the way `doRequest` formats it into an error string. -/
def renderApiError : ApiError → String
  | .http status body => "Grafana API error (Status " ++ toString status ++ "): " ++ body
  | .other msg => msg

/-! ### Decimal rendering

The name-collision loop builds candidate names with `fmt.Sprintf("%s_%d",
baseName, i)`; the embedding uses Lean's `toString : Nat → String`, which is
`Nat.repr`, the same decimal rendering. The lemmas below recover the rendered
number from the string, which shows the rendering is injective — the fact that
makes the collision loop terminate. -/

/-- Read a list of decimal digit characters back into the number they denote. -/
def decodeDigits (cs : List Char) : Nat :=
  cs.foldl (fun a c => a * 10 + (c.toNat - 48)) 0

theorem digitChar_toNat (m : Nat) (h : m < 10) : (Nat.digitChar m).toNat = 48 + m := by
  interval_cases m <;> decide

theorem toDigitsCore_decode (fuel : Nat) :
    ∀ (n : Nat) (ds : List Char), n < fuel →
      (Nat.toDigitsCore 10 fuel n ds).foldl (fun a c => a * 10 + (c.toNat - 48)) 0 =
        ds.foldl (fun a c => a * 10 + (c.toNat - 48)) n := by
  induction fuel with
  | zero => intro n ds h; omega
  | succ fuel ih =>
    intro n ds h
    simp only [Nat.toDigitsCore]
    have hmod : (Nat.digitChar (n % 10)).toNat = 48 + n % 10 :=
      digitChar_toNat (n % 10) (Nat.mod_lt _ (by norm_num))
    by_cases h10 : n / 10 = 0
    · have hn : n % 10 = n := by omega
      rw [if_pos h10]
      simp only [List.foldl]
      rw [hn] at hmod
      rw [hn, hmod]
      congr 1
      omega
    · have hlt : n / 10 < fuel := by
        have h1 : n / 10 < n := Nat.div_lt_self (by omega) (by norm_num)
        omega
      rw [if_neg h10, ih (n / 10) (Nat.digitChar (n % 10) :: ds) hlt]
      simp only [List.foldl, hmod]
      congr 1
      omega

theorem decode_repr (n : Nat) : decodeDigits (Nat.repr n).data = n := by
  have h := toDigitsCore_decode (n + 1) n [] (Nat.lt_succ_self n)
  simpa [Nat.repr, Nat.toDigits, decodeDigits, List.asString] using h

theorem natToString_injective : Function.Injective (fun n : Nat => toString n) := by
  intro a b h
  have : decodeDigits (Nat.repr a).data = decodeDigits (Nat.repr b).data := by
    simpa [toString] using congrArg (fun s : String => decodeDigits s.data) h
  rwa [decode_repr, decode_repr] at this

/-! ### Data-source reconciler (`provisionDataSource` in `provision.go`)

The reconciler first scans the pre-fetched `existingSources` for a record with
the same (type, URL, database) triple; on a hit it returns that record's
id/UID/name without any network write. Otherwise it resolves a free name —
the desired name, or `name_1`, `name_2`, … — and POSTs a creation request; a
409 answer is swallowed as success. -/

/-- The connection-identity scan: first existing record whose type, URL and
database all equal the desired ones (`provision.go`, the first loop of
`provisionDataSource`). -/
def findExistingByConnection (dataSource : DataSource) (existingSources : List DataSource) :
    Option DataSource :=
  existingSources.find? fun source =>
    source.type == dataSource.type && source.url == dataSource.url &&
      source.database == dataSource.database

/-- The candidate name tried at iteration `i` of the collision loop:
`baseName` itself at `i = 0`, `fmt.Sprintf("%s_%d", baseName, i)` after. -/
def candidateName (baseName : String) (i : Nat) : String :=
  if i > 0 then baseName ++ "_" ++ toString i else baseName

/-- Whether some existing record bears exactly `currentName` (the inner loop
of the name-collision resolution). -/
def nameConflict (existingSources : List DataSource) (currentName : String) : Bool :=
  existingSources.any fun source => source.name == currentName

/-- The collision loop `for i := 0; ; i++ { … }`, embedded with explicit fuel:
`none` means the fuel ran out before a free candidate was found (proved
impossible below for fuel `existingSources.length + 1`). -/
def resolveNameAux (existingSources : List DataSource) (baseName : String) :
    Nat → Nat → Option String
  | 0, _ => none
  | fuel + 1, i =>
    if nameConflict existingSources (candidateName baseName i) then
      resolveNameAux existingSources baseName fuel (i + 1)
    else
      some (candidateName baseName i)

/-- The resolved unique name for a data source about to be created. The
`getD` default is dead code: `resolveNameAux_isSome` below shows the loop
always finds a free name within `existingSources.length + 1` iterations. -/
def resolveName (existingSources : List DataSource) (baseName : String) : String :=
  (resolveNameAux existingSources baseName (existingSources.length + 1) 0).getD baseName

/-- The creation request body built from the record to create
(`dsModel` in `provisionDataSource`): the type and access mode are fixed, the
default flag cleared. -/
def buildDataSourceModel (sourceToCreate : DataSource) : PostgreSQLDataSourceModel where
  name := sourceToCreate.name
  type := "grafana-postgresql-datasource"
  access := "direct"
  url := sourceToCreate.url
  database := sourceToCreate.database
  user := sourceToCreate.user
  password := sourceToCreate.password
  sslMode := sourceToCreate.sslMode
  isDefault := false

/-- `provisionDataSource`: `create` is the remote creation call (the
transport boundary); the second component lists the creation requests issued
(empty on the read-match path, a single request otherwise). -/
def provisionDataSource
    (create : PostgreSQLDataSourceModel → Except ApiError CreateDataSourceResponse)
    (dataSource : DataSource) (existingSources : List DataSource) :
    Except ApiError CreateDataSourceResponse × List PostgreSQLDataSourceModel :=
  match findExistingByConnection dataSource existingSources with
  | some source =>
      (.ok ⟨{ id := source.id, uid := source.uid, name := source.name,
              message := "Already exists" }⟩, [])
  | none =>
      let sourceToCreate := { dataSource with name := resolveName existingSources dataSource.name }
      let dsModel := buildDataSourceModel sourceToCreate
      match create dsModel with
      | .error e =>
          if is409 e then
            (.ok ⟨{ name := dsModel.name,
                    message := "Data source already exists (409 Conflict)" }⟩, [dsModel])
          else
            (.error e, [dsModel])
      | .ok resp => (.ok resp, [dsModel])

/-! ### Termination of the name-collision loop -/

theorem string_data_injective : Function.Injective String.data := by
  intro a b h
  cases a
  cases b
  exact congrArg String.mk h

theorem candidateName_injective (baseName : String) :
    Function.Injective (candidateName baseName) := by
  have hlen : ∀ j : Nat, 0 < j →
      (candidateName baseName j).length = baseName.length + 1 + (toString j).length := by
    intro j hj
    have h1 : ("_" : String).length = 1 := rfl
    simp [candidateName, hj, String.length_append, h1]
  intro i j h
  rcases Nat.eq_zero_or_pos i with hi | hi
  · rcases Nat.eq_zero_or_pos j with hj | hj
    · omega
    · exfalso
      have h0 : (candidateName baseName i).length = baseName.length := by
        simp [candidateName, hi]
      have hJ := hlen j hj
      rw [h] at h0
      omega
  · rcases Nat.eq_zero_or_pos j with hj | hj
    · exfalso
      have h0 : (candidateName baseName j).length = baseName.length := by
        simp [candidateName, hj]
      have hI := hlen i hi
      rw [← h] at h0
      omega
    · have h' : baseName ++ "_" ++ toString i = baseName ++ "_" ++ toString j := by
        simpa [candidateName, hi, hj] using h
      have hd : (toString i).data = (toString j).data := by
        simpa [String.data_append] using congrArg String.data h'
      exact natToString_injective (string_data_injective hd)

theorem nameConflict_iff_mem (existingSources : List DataSource) (s : String) :
    nameConflict existingSources s = true ↔ s ∈ existingSources.map (·.name) := by
  simp [nameConflict, List.any_eq_true]

/-- Pigeonhole: among the first `existingSources.length + 1` candidate names
some candidate is free, since the candidates are pairwise distinct and only
`existingSources.length` names can be taken. -/
theorem exists_free_candidate (existingSources : List DataSource) (baseName : String) :
    ∃ k, k < existingSources.length + 1 ∧
      nameConflict existingSources (candidateName baseName k) = false := by
  by_contra hall
  push_neg at hall
  have hconf : ∀ k, k < existingSources.length + 1 →
      candidateName baseName k ∈ existingSources.map (·.name) := by
    intro k hk
    have := hall k hk
    have htrue : nameConflict existingSources (candidateName baseName k) = true := by
      cases hcase : nameConflict existingSources (candidateName baseName k)
      · exact absurd hcase this
      · rfl
    exact (nameConflict_iff_mem _ _).mp htrue
  have hsub : (List.range (existingSources.length + 1)).map (candidateName baseName) ⊆
      existingSources.map (·.name) := by
    intro x hx
    rcases List.mem_map.mp hx with ⟨k, hk, rfl⟩
    exact hconf k (List.mem_range.mp hk)
  have hnodup : ((List.range (existingSources.length + 1)).map (candidateName baseName)).Nodup :=
    (List.nodup_range _).map (candidateName_injective baseName)
  have hle := (List.subperm_of_subset hnodup hsub).length_le
  simp only [List.length_map, List.length_range] at hle
  omega

/-- If some candidate with index in `[i, i + fuel)` is free, the loop starting
at `i` with `fuel` iterations of budget returns the first free candidate at or
after `i`. -/
theorem resolveNameAux_spec (existingSources : List DataSource) (baseName : String) :
    ∀ (fuel i : Nat),
      (∃ k, i ≤ k ∧ k < i + fuel ∧
          nameConflict existingSources (candidateName baseName k) = false) →
      ∃ k, i ≤ k ∧
        nameConflict existingSources (candidateName baseName k) = false ∧
        (∀ j, i ≤ j → j < k →
          nameConflict existingSources (candidateName baseName j) = true) ∧
        resolveNameAux existingSources baseName fuel i = some (candidateName baseName k) := by
  intro fuel
  induction fuel with
  | zero => intro i ⟨k, hk1, hk2, _⟩; omega
  | succ fuel ih =>
    intro i ⟨k, hik, hk2, hkfree⟩
    by_cases hc : nameConflict existingSources (candidateName baseName i) = true
    · have hki : k ≠ i := by
        intro h; rw [h] at hkfree; rw [hkfree] at hc; exact Bool.false_ne_true hc
      have hrec := ih (i + 1) ⟨k, by omega, by omega, hkfree⟩
      rcases hrec with ⟨k', hk'1, hk'free, hk'min, hk'eq⟩
      refine ⟨k', by omega, hk'free, ?_, ?_⟩
      · intro j hj1 hj2
        rcases Nat.eq_or_lt_of_le hj1 with rfl | hj1'
        · exact hc
        · exact hk'min j hj1' hj2
      · simpa [resolveNameAux, hc] using hk'eq
    · have hfree : nameConflict existingSources (candidateName baseName i) = false :=
        Bool.eq_false_iff.mpr hc
      exact ⟨i, le_refl i, hfree, fun j hj1 hj2 => by omega,
        by simp [resolveNameAux, hfree]⟩

/-- The loop terminates: with fuel `existingSources.length + 1` it returns the
first conflict-free candidate. -/
theorem resolveName_spec (existingSources : List DataSource) (baseName : String) :
    ∃ k, nameConflict existingSources (candidateName baseName k) = false ∧
      (∀ j, j < k → nameConflict existingSources (candidateName baseName j) = true) ∧
      resolveNameAux existingSources baseName (existingSources.length + 1) 0 =
        some (candidateName baseName k) ∧
      resolveName existingSources baseName = candidateName baseName k := by
  rcases exists_free_candidate existingSources baseName with ⟨k, hk, hfree⟩
  rcases resolveNameAux_spec existingSources baseName (existingSources.length + 1) 0
      ⟨k, Nat.zero_le k, by omega, hfree⟩ with ⟨k', _, hk'free, hk'min, hk'eq⟩
  exact ⟨k', hk'free, fun j hj => hk'min j (Nat.zero_le j) hj, hk'eq,
    by simp [resolveName, hk'eq]⟩

theorem resolveName_not_conflicting (existingSources : List DataSource) (baseName : String) :
    nameConflict existingSources (resolveName existingSources baseName) = false := by
  rcases resolveName_spec existingSources baseName with ⟨k, hfree, _, _, heq⟩
  rw [heq]; exact hfree

theorem resolveName_of_free (existingSources : List DataSource) (baseName : String)
    (h : nameConflict existingSources baseName = false) :
    resolveName existingSources baseName = baseName := by
  rcases resolveName_spec existingSources baseName with ⟨k, _, hmin, _, heq⟩
  rcases Nat.eq_zero_or_pos k with rfl | hk
  · simpa [candidateName] using heq
  · exfalso
    have h0 := hmin 0 hk
    rw [show candidateName baseName 0 = baseName from by simp [candidateName]] at h0
    rw [h] at h0
    exact Bool.false_ne_true h0

/-! ### Dashboard documents

A parsed dashboard file is `map[string]interface{}` in Go; the embedding uses
a first-order JSON value tree and an association list for objects, with Go's
map update (replace the binding if the key is present, insert otherwise). -/

/-- A parsed JSON value. -/
inductive JsonValue where
  | str (s : String)
  | num (n : Int)
  | bool (b : Bool)
  | null
  | arr (elems : List JsonValue)
  | obj (fields : List (String × JsonValue))
deriving Repr

/-- A raw dashboard document (`DashboardJSON`): the top-level JSON object. -/
abbrev DashboardJSON := List (String × JsonValue)

/-- Go map read `m[key]`: the first binding of `key`. -/
def lookupAssoc {β : Type} : List (String × β) → String → Option β
  | [], _ => none
  | e :: rest, key => if e.1 == key then some e.2 else lookupAssoc rest key

/-- Go map write `m[key] = v`: replace the first binding of `key`, or append
the binding if the key is absent. -/
def setAssoc {β : Type} : List (String × β) → String → β → List (String × β)
  | [], key, v => [(key, v)]
  | (k, w) :: rest, key, v =>
      if k == key then (key, v) :: rest else (k, w) :: setAssoc rest key v

/-- The `/api/dashboards/import` request body (`DashboardImportRequest`). -/
structure DashboardImportRequest where
  dashboard : DashboardJSON
  inputs : List JsonValue
  folderUID : String
  overwrite : Bool
  message : String
deriving Repr

/-- The two type assertions at the top of the `processInputs` loop body:
an entry takes part only if it is a JSON object whose `name` field is a
string; the object and that name are returned. -/
def wellFormedInput : JsonValue → Option (List (String × JsonValue) × String)
  | .obj inputMap =>
      match lookupAssoc inputMap "name" with
      | some (.str name) => some (inputMap, name)
      | _ => none
  | _ => none

/-- The value-substitution step of `processInputs`: overwrite `value` with the
mapped value when the entry's name is mapped, else rewrite the present default
value (a no-op write), else leave the object alone. -/
def substituteInput (inputValues : List (String × String))
    (inputMap : List (String × JsonValue)) (name : String) : List (String × JsonValue) :=
  match lookupAssoc inputValues name with
  | some value => setAssoc inputMap "value" (.str value)
  | none =>
      match lookupAssoc inputMap "value" with
      | some currentValue => setAssoc inputMap "value" currentValue
      | none => inputMap

/-- `processInputs` (`provision.go`): walk the `__inputs` entries, substitute
values, and collect the well-formed entries (malformed ones are skipped). -/
def processInputs : List JsonValue → List (String × String) → List JsonValue
  | [], _ => []
  | input :: rest, inputValues =>
      match wellFormedInput input with
      | some (inputMap, name) =>
          JsonValue.obj (substituteInput inputValues inputMap name) ::
            processInputs rest inputValues
      | none => processInputs rest inputValues

/-- The `__inputs` array as it stands after `processInputs` ran: the Go code
mutates the entry maps in place through shared references, so the document
submitted with the import request carries the same substitutions, while
malformed entries stay in the array untouched. -/
def processInputsInPlace (inputs : List JsonValue)
    (inputValues : List (String × String)) : List JsonValue :=
  inputs.map fun input =>
    match wellFormedInput input with
    | some (inputMap, name) => JsonValue.obj (substituteInput inputValues inputMap name)
    | none => input

/-! ### Folder reconciler -/

/-- ASCII lower-casing of one character (A–Z to a–z). -/
def foldChar (c : Char) : Char :=
  if c.toNat ≥ 65 && c.toNat ≤ 90 then Char.ofNat (c.toNat + 32) else c

/-- `strings.EqualFold`: case-insensitive string equality. The Go function
performs Unicode simple case folding; every folder name this program compares
("General" against configured names) is ASCII, where the two coincide. -/
def eqFold (a b : String) : Bool := a.data.map foldChar == b.data.map foldChar

/-- The provisioning configuration subset (`Config` in the grafana package);
`foldersMapping` is the name-to-identifier mapping `provisionFolders` fills. -/
structure Config where
  dataSources : List DataSource := []
  folders : List Folder := []
  dashboards : List Dashboard := []
  foldersMapping : List (String × FolderMapping) := []
deriving Repr

/-- `CreateFolder` (`client.go`): `doCreate` is the POST plus response
unmarshalling. A 409 answer is converted into a distinguished error — a hard
failure, unlike the data-source path. -/
def CreateFolder (doCreate : Except ApiError FolderResponse) (title : String) :
    Except String FolderResponse :=
  match doCreate with
  | .error e =>
      if is409 e then
        .error ("folder creation failed (409 Conflict): folder with title '" ++
          title ++ "' already exists")
      else
        .error ("folder creation failed: " ++ renderApiError e)
  | .ok response => .ok response

/-- Modelled from the spec: `CreateFolderIfNotExists` is called by
`provisionFolders` but its definition is not among the available sources.
Spec section 4.2: for each desired folder, look up an existing record with
exactly matching title and reuse it with no write; if absent, create it via
the folder-creation call. -/
def createFolderIfNotExists (existingFolders : List FolderResponse)
    (doCreate : Except ApiError FolderResponse) (title : String) :
    Except String FolderResponse :=
  match existingFolders.find? (fun f => f.title == title) with
  | some folder => .ok folder
  | none => CreateFolder doCreate title

/-- The loop body fold of `provisionFolders`: `step` reconciles one folder
title; each response is recorded in the mapping under the response's title. -/
def provisionFoldersGo (step : String → Except String FolderResponse) :
    List Folder → Config → Except String Config
  | [], cfg => .ok cfg
  | folderConfig :: rest, cfg =>
      match step folderConfig.name with
      | .error e =>
          .error ("failed to provision folder '" ++ folderConfig.name ++ "': " ++ e)
      | .ok resp =>
          let fm : FolderMapping := { id := resp.id, uid := resp.uid, title := resp.title }
          provisionFoldersGo step rest
            { cfg with foldersMapping := setAssoc cfg.foldersMapping resp.title fm }

/-- `provisionFolders` (`provision.go`): reset the mapping, then reconcile
every configured folder, aborting on the first failure. -/
def provisionFolders (step : String → Except String FolderResponse) (cfg : Config) :
    Except String Config :=
  provisionFoldersGo step cfg.folders { cfg with foldersMapping := [] }

/-! ### Dashboard reconciler -/

/-- `getDashboardFolderUID` (`provision.go`): "General" (case-insensitive)
resolves to the mapped UID if the mapping has key "General", else to the empty
sentinel, never an error; any other folder name must be a key of the mapping. -/
def getDashboardFolderUID (cfg : Config) (dashboardConfig : Dashboard) :
    Except String String :=
  let requiredFolder := dashboardConfig.folder
  if eqFold requiredFolder "General" then
    match lookupAssoc cfg.foldersMapping "General" with
    | some mapping => .ok mapping.uid
    | none => .ok ""
  else
    match lookupAssoc cfg.foldersMapping requiredFolder with
    | some mapping => .ok mapping.uid
    | none =>
        .error ("dashboard folder '" ++ requiredFolder ++
          "' is not defined in the 'folders' configuration list. Please add it to provision it")

/-- `FindFirstDashboardByFolderAndName` (`client.go`): the first search entry
that is a dashboard, has the wanted title and matches the wanted folder title,
with the "General" special case (the server reports an empty folder title for
dashboards in the default folder); the zero value when none matches. -/
def FindFirstDashboardByFolderAndName (searchResults : List DashboardSearchResponse)
    (name folder : String) : DashboardSearchResponse :=
  match searchResults.find? (fun result =>
      result.type == "dash-db" && result.title == name &&
        (result.folderTitle == folder ||
          (eqFold folder "General" &&
            (result.folderTitle == "" || eqFold result.folderTitle "General")))) with
  | some result => result
  | none => {}

/-- `provisionDashboard` (`provision.go`): read and parse the file
(`fileContent` folds `os.ReadFile` and `json.Unmarshal`), locate a
previously imported dashboard with the same name and folder, overwrite the
document's `title`/`id`/`uid`, force the empty folder UID for "General",
substitute the import variable, and submit an overwrite-import. The second
component lists the import requests submitted. -/
def provisionDashboard (fileContent : Except String DashboardJSON)
    (searchResults : Except String (List DashboardSearchResponse))
    (importResult : DashboardImportRequest → Except String Unit)
    (cfg : Dashboard) (dsUID folderUID : String) :
    Except String Unit × List DashboardImportRequest :=
  match fileContent with
  | .error e => (.error ("failed to read dashboard file " ++ cfg.file ++ ": " ++ e), [])
  | .ok rawDashboard0 =>
    match searchResults with
    | .error e => (.error ("failed to find existsting dashboard: " ++ e), [])
    | .ok results =>
      let existingDashboard := FindFirstDashboardByFolderAndName results cfg.name cfg.folder
      let rawDashboard1 :=
        setAssoc (setAssoc (setAssoc rawDashboard0 "title" (.str cfg.name))
          "id" (.num existingDashboard.id)) "uid" (.str existingDashboard.uid)
      let folderUID1 := if eqFold cfg.folder "General" then "" else folderUID
      let inputValues := [(cfg.importVar, dsUID)]
      match lookupAssoc rawDashboard1 "__inputs" with
      | some (.arr inputsSlice) =>
          let importRequest : DashboardImportRequest :=
            { dashboard :=
                setAssoc rawDashboard1 "__inputs"
                  (.arr (processInputsInPlace inputsSlice inputValues)),
              inputs := processInputs inputsSlice inputValues,
              folderUID := folderUID1,
              overwrite := true,
              message := "Automated provisioning by grafana-provisioner" }
          (importResult importRequest, [importRequest])
      | _ =>
          let importRequest : DashboardImportRequest :=
            { dashboard := rawDashboard1,
              inputs := [],
              folderUID := folderUID1,
              overwrite := true,
              message := "Automated provisioning by grafana-provisioner" }
          (importResult importRequest, [importRequest])

/-! ### Idealized server model

To settle run-level claims (re-running the workflow, fetch-once behaviour) the
external dashboard server is modelled from the interface description of the
spec (section 6): creation calls answer 409 exactly on a name/title collision,
the search endpoint reports dashboards with the containing folder's title, and
an overwrite-import replaces the dashboard bearing the document's UID. Fresh
identifiers are drawn from a counter. -/

/-- A dashboard stored on the server: its identifiers, title, and containing
folder UID (empty for the default "General" location). -/
structure StoredDashboard where
  id : Int := 0
  uid : String := ""
  title : String := ""
  folderUID : String := ""
deriving Repr, DecidableEq

/-- The server-side state the provisioner reads and writes. -/
structure ServerState where
  dataSources : List DataSource := []
  folders : List FolderResponse := []
  dashboards : List StoredDashboard := []
  nextId : Nat := 1
deriving Repr, DecidableEq

/-- Server-assigned UID for the `n`-th created object. -/
def freshUID (n : Nat) : String := "uid-" ++ toString n

/-- Modelled from the spec (section 6): `POST /api/datasources` — 409 when a
data source with the same name exists, otherwise a new record with fresh
id/UID and the posted fields. -/
def serverCreateDataSource (s : ServerState) (m : PostgreSQLDataSourceModel) :
    Except ApiError CreateDataSourceResponse × ServerState :=
  if s.dataSources.any (fun ds => ds.name == m.name) then
    (.error (.http 409 "data source with the same name already exists"), s)
  else
    let record : DataSource :=
      { id := Int.ofNat s.nextId, uid := freshUID s.nextId, name := m.name, type := m.type,
        url := m.url, user := m.user, password := m.password, sslMode := m.sslMode,
        isDefault := m.isDefault, database := m.database }
    (.ok ⟨{ id := record.id, uid := record.uid, name := record.name,
            message := "Datasource added" }⟩,
      { s with dataSources := s.dataSources ++ [record], nextId := s.nextId + 1 })

/-- Modelled from the spec (section 6): `POST /api/folders` — 409 on a title
collision, otherwise a new folder with fresh id/UID. -/
def serverCreateFolder (s : ServerState) (title : String) :
    Except ApiError FolderResponse × ServerState :=
  if s.folders.any (fun f => f.title == title) then
    (.error (.http 409 "a folder with the same name already exists"), s)
  else
    let folder : FolderResponse :=
      { id := Int.ofNat s.nextId, uid := freshUID s.nextId, title := title, url := "" }
    (.ok folder, { s with folders := s.folders ++ [folder], nextId := s.nextId + 1 })

/-- The folder title the search endpoint reports for a dashboard stored under
`folderUID`: empty for the default location or an unknown UID. -/
def folderTitleOf (s : ServerState) (folderUID : String) : String :=
  match s.folders.find? (fun f => f.uid == folderUID) with
  | some f => f.title
  | none => ""

/-- Modelled from the spec (section 6): `GET /api/search` — every stored
dashboard, with type `dash-db` and the containing folder's title. -/
def serverSearch (s : ServerState) : List DashboardSearchResponse :=
  s.dashboards.map fun d =>
    { id := d.id, uid := d.uid, title := d.title, type := "dash-db",
      folderUID := d.folderUID, folderTitle := folderTitleOf s d.folderUID }

/-- Modelled from the spec: `GetDataSource` (called by `provisionDashboards`
but absent from the available sources) — resolve a data-source name to its
record, an error when the name is unknown. -/
def serverGetDataSource (s : ServerState) (name : String) : Except ApiError DataSource :=
  match s.dataSources.find? (fun ds => ds.name == name) with
  | some ds => .ok ds
  | none => .error (.http 404 ("data source " ++ name ++ " not found"))

/-- The string at `key` of a document, empty when absent or not a string. -/
def getStrField (doc : DashboardJSON) (key : String) : String :=
  match lookupAssoc doc key with
  | some (.str v) => v
  | _ => ""

/-- Modelled from the spec (section 6): `POST /api/dashboards/import` with
`overwrite` set — replace the stored dashboard bearing the document's UID in
place (new title and folder, identifiers kept), or store a new dashboard with
fresh identifiers when the document carries no known UID. -/
def serverImportDashboard (s : ServerState) (req : DashboardImportRequest) :
    Except String Unit × ServerState :=
  let uid := getStrField req.dashboard "uid"
  let title := getStrField req.dashboard "title"
  if uid != "" && s.dashboards.any (fun d => d.uid == uid) then
    (.ok (), { s with dashboards := s.dashboards.map fun d =>
        if d.uid == uid then { d with title := title, folderUID := req.folderUID } else d })
  else
    let stored : StoredDashboard :=
      { id := Int.ofNat s.nextId, uid := freshUID s.nextId, title := title,
        folderUID := req.folderUID }
    (.ok (), { s with dashboards := s.dashboards ++ [stored], nextId := s.nextId + 1 })

/-! ### The orchestrator over the server model

Each phase is the corresponding Go function with the transport oracles
instantiated by the server model; a function returns its result, the server
state after its writes, and the write requests it issued. -/

/-- One `provisionDataSource` call against the server: the single creation
request it issues (if any) is applied to the state. -/
def provisionDataSourceS (s : ServerState) (dataSource : DataSource)
    (existingSources : List DataSource) :
    Except ApiError CreateDataSourceResponse × ServerState × List PostgreSQLDataSourceModel :=
  let r := provisionDataSource (fun m => (serverCreateDataSource s m).1) dataSource existingSources
  (r.1, r.2.foldl (fun st m => (serverCreateDataSource st m).2) s, r.2)

/-- The loop of `provisionDataSources`: every iteration matches and resolves
names against the one pre-fetched `existingSources` list, while creations
mutate the real server state. -/
def provisionDataSourcesGo (existingSources : List DataSource) :
    List DataSource → ServerState → List CreateDataSourceResponse →
    List PostgreSQLDataSourceModel →
    Except String (List CreateDataSourceResponse) × ServerState × List PostgreSQLDataSourceModel
  | [], s, acc, reqs => (.ok acc, s, reqs)
  | d :: rest, s, acc, reqs =>
      let r := provisionDataSourceS s d existingSources
      match r.1 with
      | .error e =>
          (.error ("failed to provision datasource '" ++ d.name ++ "': " ++ renderApiError e),
            r.2.1, reqs ++ r.2.2)
      | .ok resp =>
          provisionDataSourcesGo existingSources rest r.2.1 (acc ++ [resp]) (reqs ++ r.2.2)

/-- `provisionDataSources` (`provision.go`): fetch the existing records once,
then provision every configured data source against that list. -/
def provisionDataSourcesS (s : ServerState) (cfg : Config) :
    Except String (List CreateDataSourceResponse) × ServerState × List PostgreSQLDataSourceModel :=
  provisionDataSourcesGo s.dataSources cfg.dataSources s [] []

/-- One `CreateFolderIfNotExists` call against the server (the per-call fetch
of existing folders, then the creation request when the title is absent). -/
def createFolderIfNotExistsS (s : ServerState) (title : String) :
    Except String FolderResponse × ServerState × List String :=
  match s.folders.find? (fun f => f.title == title) with
  | some folder => (.ok folder, s, [])
  | none =>
      (CreateFolder (serverCreateFolder s title).1 title, (serverCreateFolder s title).2, [title])

/-- The loop of `provisionFolders` over the server model. -/
def provisionFoldersGoS : List Folder → Config → ServerState → List String →
    Except String Config × ServerState × List String
  | [], cfg, s, reqs => (.ok cfg, s, reqs)
  | folderConfig :: rest, cfg, s, reqs =>
      let r := createFolderIfNotExistsS s folderConfig.name
      match r.1 with
      | .error e =>
          (.error ("failed to provision folder '" ++ folderConfig.name ++ "': " ++ e),
            r.2.1, reqs ++ r.2.2)
      | .ok resp =>
          let fm : FolderMapping := { id := resp.id, uid := resp.uid, title := resp.title }
          provisionFoldersGoS rest
            { cfg with foldersMapping := setAssoc cfg.foldersMapping resp.title fm }
            r.2.1 (reqs ++ r.2.2)

/-- `provisionFolders` over the server model: reset the mapping, then
reconcile every configured folder. -/
def provisionFoldersS (s : ServerState) (cfg : Config) :
    Except String Config × ServerState × List String :=
  provisionFoldersGoS cfg.folders { cfg with foldersMapping := [] } s []

/-- The loop body of `provisionDashboards` over the server model: folder
validation, data-source lookup, then the dashboard import. -/
def provisionDashboardStepS (files : String → Except String DashboardJSON)
    (cfg : Config) (s : ServerState) (d : Dashboard) :
    Except String Unit × ServerState × List DashboardImportRequest :=
  match getDashboardFolderUID cfg d with
  | .error e =>
      (.error ("dashboard folder validation failed for dashboard '" ++ d.name ++ "': " ++ e),
        s, [])
  | .ok dashboardFolderUID =>
      match serverGetDataSource s d.dataSource with
      | .error e =>
          (.error ("dashboard dataSource '" ++ d.dataSource ++ "' not found for dashboard '" ++
            d.name ++ "': " ++ renderApiError e), s, [])
      | .ok dashboardDataSource =>
          let r := provisionDashboard (files d.file) (.ok (serverSearch s))
            (fun req => (serverImportDashboard s req).1) d
            dashboardDataSource.uid dashboardFolderUID
          (match r.1 with
            | .error e =>
                .error ("dashboard provisioning failed for dashboard '" ++ d.name ++ "': " ++ e)
            | .ok _ => .ok (),
            r.2.foldl (fun st req => (serverImportDashboard st req).2) s, r.2)

/-- The loop of `provisionDashboards` over the server model. -/
def provisionDashboardsGo (files : String → Except String DashboardJSON) (cfg : Config) :
    List Dashboard → ServerState → List DashboardImportRequest →
    Except String Unit × ServerState × List DashboardImportRequest
  | [], s, reqs => (.ok (), s, reqs)
  | d :: rest, s, reqs =>
      let r := provisionDashboardStepS files cfg s d
      match r.1 with
      | .error e => (.error e, r.2.1, reqs ++ r.2.2)
      | .ok _ => provisionDashboardsGo files cfg rest r.2.1 (reqs ++ r.2.2)

/-- The write requests of one full run. -/
structure RunTrace where
  dsRequests : List PostgreSQLDataSourceModel := []
  folderRequests : List String := []
  importRequests : List DashboardImportRequest := []
deriving Repr

/-- `RunProvisioning` (`provision.go`) over the server model: data sources,
then folders, then dashboards, halting at the first failing stage. The
readiness probe is an external wait and is not modelled. -/
def RunProvisioning (files : String → Except String DashboardJSON) (cfg : Config)
    (s : ServerState) : Except String Unit × ServerState × RunTrace :=
  let rds := provisionDataSourcesS s cfg
  match rds.1 with
  | .error e =>
      (.error ("data source provisioning failed: " ++ e), rds.2.1,
        { dsRequests := rds.2.2 })
  | .ok _ =>
      let rf := provisionFoldersS rds.2.1 cfg
      match rf.1 with
      | .error e =>
          (.error ("folder provisioning failed: " ++ e), rf.2.1,
            { dsRequests := rds.2.2, folderRequests := rf.2.2 })
      | .ok cfg2 =>
          let rd := provisionDashboardsGo files cfg2 cfg2.dashboards rf.2.1 []
          match rd.1 with
          | .error e =>
              (.error ("dashboard provisioning failed: " ++ e), rd.2.1,
                { dsRequests := rds.2.2, folderRequests := rf.2.2, importRequests := rd.2.2 })
          | .ok _ =>
              (.ok (), rd.2.1,
                { dsRequests := rds.2.2, folderRequests := rf.2.2, importRequests := rd.2.2 })

/-! ### Claims about the data-source reconciler -/

/-- Claim C3: for every desired name and every finite set of existing
data-source records, the name-collision resolution loop terminates: within
`existingSources.length + 1` iterations it reaches a candidate name that
equals no existing record's name, and `resolveName` returns that name (the
fuel-exhaustion fallback of the embedding is never taken). -/
theorem C3_name_resolution_terminates (existingSources : List DataSource) (baseName : String) :
    ∃ name, resolveNameAux existingSources baseName (existingSources.length + 1) 0 = some name ∧
      nameConflict existingSources name = false ∧
      resolveName existingSources baseName = name := by
  rcases resolveName_spec existingSources baseName with ⟨k, hfree, _, haux, heq⟩
  exact ⟨candidateName baseName k, haux, hfree, heq⟩

/-- Claim C1: if some existing record's (type, URL, database) triple equals
the desired triple, data-source reconciliation returns that record's
id/UID/name and issues no creation request, regardless of whether the names
match. -/
theorem C1_connection_match_returns_existing
    (create : PostgreSQLDataSourceModel → Except ApiError CreateDataSourceResponse)
    (dataSource : DataSource) (existingSources : List DataSource)
    (h : ∃ source ∈ existingSources, source.type = dataSource.type ∧
      source.url = dataSource.url ∧ source.database = dataSource.database) :
    ∃ source ∈ existingSources,
      source.type = dataSource.type ∧ source.url = dataSource.url ∧
      source.database = dataSource.database ∧
      provisionDataSource create dataSource existingSources =
        (.ok ⟨{ id := source.id, uid := source.uid, name := source.name,
                message := "Already exists" }⟩, []) := by
  have hsome : (existingSources.find? fun source =>
      source.type == dataSource.type && source.url == dataSource.url &&
        source.database == dataSource.database).isSome := by
    rw [List.find?_isSome]
    rcases h with ⟨source, hmem, h1, h2, h3⟩
    exact ⟨source, hmem, by simp [h1, h2, h3]⟩
  rcases Option.isSome_iff_exists.mp hsome with ⟨source, hfind⟩
  have hmem := List.mem_of_find?_eq_some hfind
  have hprop := List.find?_some hfind
  simp only [Bool.and_eq_true, beq_iff_eq] at hprop
  refine ⟨source, hmem, hprop.1.1, hprop.1.2, hprop.2, ?_⟩
  simp [provisionDataSource, findExistingByConnection, hfind]

/-- Claim C2: when no existing connection matches, the name sent in the
creation request is the desired name when free, and otherwise the first
candidate of the form `name_1`, `name_2`, … borne by no existing record; in
particular with existing names m and m_1 and desired name m the resolved name
is m_2. -/
theorem C2_name_collision_resolution
    (create : PostgreSQLDataSourceModel → Except ApiError CreateDataSourceResponse)
    (dataSource : DataSource) (existingSources : List DataSource)
    (hconn : findExistingByConnection dataSource existingSources = none) :
    (provisionDataSource create dataSource existingSources).2 =
      [buildDataSourceModel
        { dataSource with name := resolveName existingSources dataSource.name }] ∧
    (buildDataSourceModel
        { dataSource with name := resolveName existingSources dataSource.name }).name =
      resolveName existingSources dataSource.name ∧
    (nameConflict existingSources dataSource.name = false →
      resolveName existingSources dataSource.name = dataSource.name) ∧
    (∃ i, resolveName existingSources dataSource.name = candidateName dataSource.name i ∧
      nameConflict existingSources (candidateName dataSource.name i) = false ∧
      ∀ j, j < i → nameConflict existingSources (candidateName dataSource.name j) = true) ∧
    resolveName [{ name := "m" }, { name := "m_1" }] "m" = "m_2" := by
  refine ⟨?_, rfl, resolveName_of_free existingSources dataSource.name, ?_, by decide⟩
  · simp only [provisionDataSource, hconn]
    cases hcr : create (buildDataSourceModel
        { dataSource with name := resolveName existingSources dataSource.name }) with
    | error e => by_cases h9 : is409 e <;> simp [h9]
    | ok resp => simp
  · rcases resolveName_spec existingSources dataSource.name with ⟨k, hfree, hmin, _, heq⟩
    exact ⟨k, heq, hfree, hmin⟩

/-- Claim C4: when a creation request is answered with HTTP 409, data-source
reconciliation returns success carrying the resolved name with zero id and
empty UID instead of propagating the error; any other failure of the creation
call is returned as an error. -/
theorem C4_create_conflict_handling
    (create : PostgreSQLDataSourceModel → Except ApiError CreateDataSourceResponse)
    (dataSource : DataSource) (existingSources : List DataSource)
    (hconn : findExistingByConnection dataSource existingSources = none) :
    (∀ body, create (buildDataSourceModel
        { dataSource with name := resolveName existingSources dataSource.name }) =
          .error (.http 409 body) →
      (provisionDataSource create dataSource existingSources).1 =
        .ok ⟨{ id := 0, uid := "", name := resolveName existingSources dataSource.name,
               message := "Data source already exists (409 Conflict)" }⟩) ∧
    (∀ e, create (buildDataSourceModel
        { dataSource with name := resolveName existingSources dataSource.name }) = .error e →
      is409 e = false →
      (provisionDataSource create dataSource existingSources).1 = .error e) := by
  constructor
  · intro body hcr
    simp only [buildDataSourceModel] at hcr
    simp [provisionDataSource, hconn, hcr, is409, buildDataSourceModel]
  · intro e hcr h9
    simp only [buildDataSourceModel] at hcr
    simp [provisionDataSource, hconn, hcr, h9, buildDataSourceModel]

/-! ### Claims about the folder reconciler -/

/-- A failing folder step aborts `provisionFolders`: whenever some configured
folder's reconciliation step returns an error, the whole fold returns an
error. -/
theorem provisionFoldersGo_error (step : String → Except String FolderResponse) :
    ∀ (folders : List Folder) (cfg : Config),
      (∃ fl ∈ folders, ∃ e, step fl.name = .error e) →
      ∃ msg, provisionFoldersGo step folders cfg = .error msg := by
  intro folders
  induction folders with
  | nil =>
    rintro cfg ⟨fl, h, -⟩
    simp at h
  | cons f rest ih =>
    rintro cfg ⟨fl, hmem, e, herr⟩
    cases hstep : step f.name with
    | error e2 =>
      refine ⟨"failed to provision folder '" ++ f.name ++ "': " ++ e2, ?_⟩
      simp [provisionFoldersGo, hstep]
    | ok resp =>
      rcases List.mem_cons.mp hmem with rfl | hmem2
      · rw [hstep] at herr
        exact absurd herr (by simp)
      · rcases ih (Config.mk cfg.dataSources cfg.folders cfg.dashboards
            (setAssoc cfg.foldersMapping resp.title ⟨resp.id, resp.uid, resp.title⟩))
            ⟨fl, hmem2, e, herr⟩ with ⟨msg, hmsg⟩
        exact ⟨msg, by simpa [provisionFoldersGo, hstep] using hmsg⟩

/-- Claim C5: a folder creation attempt answered with HTTP 409 makes folder
reconciliation return an error — a hard failure that aborts the folder run —
never a success; the data-source creation path by contrast turns a 409 answer
into a success. -/
theorem C5_folder_conflict_is_fatal :
    (∀ (title body : String),
      CreateFolder (.error (.http 409 body)) title =
        .error ("folder creation failed (409 Conflict): folder with title '" ++ title ++
          "' already exists")) ∧
    (∀ (existingFolders : List FolderResponse) (title body : String),
      existingFolders.find? (fun f => f.title == title) = none →
      createFolderIfNotExists existingFolders (.error (.http 409 body)) title =
        .error ("folder creation failed (409 Conflict): folder with title '" ++ title ++
          "' already exists")) ∧
    (∀ (step : String → Except String FolderResponse) (cfg : Config),
      (∃ fl ∈ cfg.folders, ∃ e, step fl.name = Except.error e) →
      ∃ msg, provisionFolders step cfg = .error msg) ∧
    (∀ (dataSource : DataSource) (existingSources : List DataSource) (body : String),
      findExistingByConnection dataSource existingSources = none →
      ∃ resp, (provisionDataSource (fun _ => .error (.http 409 body))
        dataSource existingSources).1 = .ok resp) := by
  refine ⟨?_, ?_, ?_, ?_⟩
  · intro title body
    simp [CreateFolder, is409]
  · intro existingFolders title body hnone
    simp [createFolderIfNotExists, hnone, CreateFolder, is409]
  · intro step cfg h
    exact provisionFoldersGo_error step cfg.folders _ h
  · intro dataSource existingSources body hconn
    refine ⟨⟨⟨0, "", resolveName existingSources dataSource.name,
      "Data source already exists (409 Conflict)"⟩⟩, ?_⟩
    simp [provisionDataSource, hconn, is409, buildDataSourceModel]

/-! ### Claims about the dashboard reconciler -/

/-- Concrete configuration for the analysis of "General"-folder handling: the
folder mapping contains "General" with UID "gu". -/
def cfgC6 : Config :=
  { foldersMapping := [("General", { id := 7, uid := "gu", title := "General" })] }

/-- Concrete dashboard for the analysis of "General"-folder handling. -/
def dashC6 : Dashboard :=
  { name := "d", folder := "General", file := "f.json", dataSource := "ds", importVar := "DS" }

/-- Claim C6 counterexample: with the folder mapping containing "General" with
UID "gu", folder-UID resolution indeed yields "gu", but the import request
submitted by `provisionDashboard` carries the empty folder UID, not the mapped
UID "gu" as the claim states. -/
theorem C6_counterexample :
    getDashboardFolderUID cfgC6 dashC6 = .ok "gu" ∧
    (provisionDashboard (.ok []) (.ok []) (fun _ => .ok ()) dashC6 "dsuid" "gu").2.map
      (fun req => req.folderUID) = [""] ∧
    ("" : String) ≠ "gu" := by
  refine ⟨rfl, rfl, by decide⟩

/-- Claim C6 (amended): for a dashboard whose configured folder name
case-insensitively equals "General", folder-UID resolution never returns an
error, yielding the mapped UID for "General" when the folder mapping contains
"General" and the empty sentinel UID otherwise; the folder UID carried by the
submitted import request, however, is always the empty sentinel UID,
regardless of the mapping. -/
theorem C6_general_folder_resolution (cfg : Config) (d : Dashboard)
    (h : eqFold d.folder "General" = true) :
    getDashboardFolderUID cfg d =
      .ok (match lookupAssoc cfg.foldersMapping "General" with
            | some mapping => mapping.uid
            | none => "") ∧
    ∀ (fileContent : Except String DashboardJSON)
      (searchResults : Except String (List DashboardSearchResponse))
      (importResult : DashboardImportRequest → Except String Unit) (dsUID folderUID : String),
      ∀ req ∈ (provisionDashboard fileContent searchResults importResult d
          dsUID folderUID).2,
        req.folderUID = "" := by
  constructor
  · simp only [getDashboardFolderUID, h, if_true]
    cases hl : lookupAssoc cfg.foldersMapping "General" <;> simp [hl]
  · intro fileContent searchResults importResult dsUID folderUID req hreq
    cases fileContent with
    | error e => simp [provisionDashboard] at hreq
    | ok raw =>
      cases searchResults with
      | error e => simp [provisionDashboard] at hreq
      | ok results =>
        simp only [provisionDashboard] at hreq
        split at hreq <;>
          · simp only [List.mem_singleton] at hreq
            subst hreq
            simp [h]

/-- Claim C7: a dashboard whose configured folder name is neither
"General" (case-insensitively) nor a key of the folder mapping fails folder
validation with a configuration error naming the missing folder, and its
processing step submits no import request and leaves the server unchanged. -/
theorem C7_unconfigured_folder_fails_closed (cfg : Config) (d : Dashboard)
    (files : String → Except String DashboardJSON) (s : ServerState)
    (h1 : eqFold d.folder "General" = false)
    (h2 : lookupAssoc cfg.foldersMapping d.folder = none) :
    getDashboardFolderUID cfg d =
      .error ("dashboard folder '" ++ d.folder ++
        "' is not defined in the 'folders' configuration list. Please add it to provision it") ∧
    (provisionDashboardStepS files cfg s d).2.2 = [] ∧
    (provisionDashboardStepS files cfg s d).2.1 = s ∧
    ∃ msg, (provisionDashboardStepS files cfg s d).1 = Except.error msg := by
  have hg : getDashboardFolderUID cfg d =
      .error ("dashboard folder '" ++ d.folder ++
        "' is not defined in the 'folders' configuration list. Please add it to provision it") := by
    simp [getDashboardFolderUID, h1, h2]
  refine ⟨hg, ?_, ?_, ?_⟩ <;> simp [provisionDashboardStepS, hg]

/-- Witness for C7 at a concrete input. -/
theorem C7_witness :
    eqFold "payments" "General" = false ∧
    lookupAssoc ({ folders := [{ name := "logs" }] } : Config).foldersMapping "payments" = none ∧
    getDashboardFolderUID { folders := [{ name := "logs" }] } { folder := "payments" } =
      .error ("dashboard folder '" ++ "payments" ++
        "' is not defined in the 'folders' configuration list. Please add it to provision it") := by
  refine ⟨by decide, by decide, ?_⟩
  exact (C7_unconfigured_folder_fails_closed { folders := [{ name := "logs" }] }
    { folder := "payments" } (fun _ => .error "") {} (by decide) (by decide)).1

/-! ### Claims about input substitution -/

theorem lookupAssoc_setAssoc {β : Type} (m : List (String × β)) (key : String) (v : β) :
    lookupAssoc (setAssoc m key v) key = some v := by
  induction m with
  | nil => simp [setAssoc, lookupAssoc]
  | cons e rest ih =>
    obtain ⟨k, w⟩ := e
    by_cases hk : (k == key) = true
    · simp [setAssoc, hk, lookupAssoc]
    · simp only [Bool.not_eq_true] at hk
      simp [setAssoc, hk, lookupAssoc, ih]

/-- The collected processed inputs are exactly the well-formed entries, each
with the substitution applied. -/
theorem processInputs_eq (inputs : List JsonValue) (inputValues : List (String × String)) :
    processInputs inputs inputValues =
      (inputs.filterMap wellFormedInput).map
        (fun p => JsonValue.obj (substituteInput inputValues p.1 p.2)) := by
  induction inputs with
  | nil => rfl
  | cons x rest ih =>
    cases hwf : wellFormedInput x with
    | none => simp [processInputs, hwf, List.filterMap_cons, ih]
    | some p =>
      obtain ⟨m, n⟩ := p
      simp [processInputs, hwf, List.filterMap_cons, ih]

/-- Claim C8: the processed inputs consist of exactly the well-formed entries
(objects with a string `name`) — malformed entries are skipped without
failure — and each well-formed entry's `value` is set to the mapped value when
its name is in the substitution set, and left at its original value
otherwise. -/
theorem C8_import_substitution :
    (∀ (inputs : List JsonValue) (inputValues : List (String × String)),
      processInputs inputs inputValues =
        (inputs.filterMap wellFormedInput).map
          (fun p => JsonValue.obj (substituteInput inputValues p.1 p.2))) ∧
    (∀ (inputValues : List (String × String)) (inputMap : List (String × JsonValue))
        (name value : String),
      lookupAssoc inputValues name = some value →
      lookupAssoc (substituteInput inputValues inputMap name) "value" =
        some (JsonValue.str value)) ∧
    (∀ (inputValues : List (String × String)) (inputMap : List (String × JsonValue))
        (name : String),
      lookupAssoc inputValues name = none →
      lookupAssoc (substituteInput inputValues inputMap name) "value" =
        lookupAssoc inputMap "value") := by
  refine ⟨processInputs_eq, ?_, ?_⟩
  · intro inputValues inputMap name value hv
    simp [substituteInput, hv, lookupAssoc_setAssoc]
  · intro inputValues inputMap name hv
    cases hcur : lookupAssoc inputMap "value" with
    | none => simp [substituteInput, hv, hcur]
    | some currentValue => simp [substituteInput, hv, hcur, lookupAssoc_setAssoc]

/-- Witness for C8 at the spec's concrete example: `DS_A` is mapped and gets
the mapped UID, `DS_B` is unmapped and keeps its original value. -/
theorem C8_witness :
    lookupAssoc [("DS_A", "dsA")] "DS_A" = some "dsA" ∧
    lookupAssoc (substituteInput [("DS_A", "dsA")]
      [("name", JsonValue.str "DS_A"), ("value", JsonValue.str "old")] "DS_A") "value" =
      some (JsonValue.str "dsA") ∧
    lookupAssoc [("DS_A", "dsA")] "DS_B" = none ∧
    lookupAssoc (substituteInput [("DS_A", "dsA")]
      [("name", JsonValue.str "DS_B"), ("value", JsonValue.str "keep")] "DS_B") "value" =
      lookupAssoc [("name", JsonValue.str "DS_B"), ("value", JsonValue.str "keep")] "value" := by
  refine ⟨rfl, ?_, rfl, ?_⟩
  · exact C8_import_substitution.2.1 [("DS_A", "dsA")]
      [("name", JsonValue.str "DS_A"), ("value", JsonValue.str "old")] "DS_A" "dsA" rfl
  · exact C8_import_substitution.2.2 [("DS_A", "dsA")]
      [("name", JsonValue.str "DS_B"), ("value", JsonValue.str "keep")] "DS_B" rfl

/-! ### Concrete witnesses -/

/-- An existing record for the C1 witness: name x, postgres-class connection. -/
def dsRecC1 : DataSource :=
  { id := 1, uid := "u1", name := "x", type := "pg", url := "h:5432", database := "d" }

/-- A desired data source for the C1 witness: same connection, name y. -/
def dsWantC1 : DataSource := { name := "y", type := "pg", url := "h:5432", database := "d" }

/-- Witness for C1 at a concrete input: names differ, connections match. -/
theorem C1_witness :
    ∃ source ∈ [dsRecC1], source.type = dsWantC1.type ∧ source.url = dsWantC1.url ∧
      source.database = dsWantC1.database ∧
      provisionDataSource (fun _ => .error (.other "unused")) dsWantC1 [dsRecC1] =
        (.ok ⟨{ id := source.id, uid := source.uid, name := source.name,
                message := "Already exists" }⟩, []) :=
  C1_connection_match_returns_existing (fun _ => .error (.other "unused")) dsWantC1 [dsRecC1]
    ⟨dsRecC1, by simp, rfl, rfl, rfl⟩

/-- Existing records for the C2/C4 witnesses: names m and m_1, a different
connection than the desired one. -/
def exC2 : List DataSource :=
  [{ name := "m", type := "pg", url := "h:5432", database := "d" },
   { name := "m_1", type := "pg", url := "h:5432", database := "d" }]

/-- The desired data source for the C2/C4 witnesses: name m, distinct URL. -/
def dsWantC2 : DataSource := { name := "m", type := "pg", url := "h2:5432", database := "d" }

/-- Witness for C2 at the spec's concrete input: no connection match, and the
single creation request carries the resolved name. -/
theorem C2_witness :
    findExistingByConnection dsWantC2 exC2 = none ∧
    (provisionDataSource (fun _ => .error (.other "stop")) dsWantC2 exC2).2 =
      [buildDataSourceModel { dsWantC2 with name := resolveName exC2 dsWantC2.name }] ∧
    resolveName exC2 dsWantC2.name = "m_2" :=
  ⟨by decide,
   (C2_name_collision_resolution (fun _ => .error (.other "stop")) dsWantC2 exC2 (by decide)).1,
   by decide⟩

/-- Witness for C4 at a concrete input: a 409 answer is turned into success
carrying the resolved name, zero id, empty UID. -/
theorem C4_witness :
    (provisionDataSource (fun _ => .error (.http 409 "taken")) dsWantC2 exC2).1 =
      .ok ⟨{ id := 0, uid := "", name := resolveName exC2 dsWantC2.name,
             message := "Data source already exists (409 Conflict)" }⟩ ∧
    (provisionDataSource (fun _ => .error (.http 500 "boom")) dsWantC2 exC2).1 =
      .error (.http 500 "boom") :=
  ⟨(C4_create_conflict_handling (fun _ => .error (.http 409 "taken")) dsWantC2 exC2
      (by decide)).1 "taken" rfl,
   (C4_create_conflict_handling (fun _ => .error (.http 500 "boom")) dsWantC2 exC2
      (by decide)).2 (.http 500 "boom") rfl rfl⟩

/-- Witness for C5 at a concrete input: the 409 error message, and the abort of
the folder run on a failing step. -/
theorem C5_witness :
    CreateFolder (.error (.http 409 "b")) "logs" =
      .error ("folder creation failed (409 Conflict): folder with title '" ++ "logs" ++
        "' already exists") ∧
    (∃ msg, provisionFolders (fun _ => .error "boom")
      { folders := [{ name := "logs" }] } = .error msg) :=
  ⟨C5_folder_conflict_is_fatal.1 "logs" "b",
   C5_folder_conflict_is_fatal.2.2.1 (fun _ => .error "boom") { folders := [{ name := "logs" }] }
     ⟨{ name := "logs" }, by simp, "boom", rfl⟩⟩

/-- Witness for the amended C6 at the concrete configuration with a mapped
"General" folder. -/
theorem C6_witness :
    eqFold dashC6.folder "General" = true ∧
    getDashboardFolderUID cfgC6 dashC6 =
      .ok (match lookupAssoc cfgC6.foldersMapping "General" with
            | some mapping => mapping.uid
            | none => "") :=
  ⟨rfl, (C6_general_folder_resolution cfgC6 dashC6 rfl).1⟩

/-! ### The pre-fetched list governs all data-source decisions -/

/-- The creation requests issued for a list of desired data sources, computed
from the pre-fetched record list alone: one request per desired source whose
connection matches no pre-fetched record, named by collision resolution
against the pre-fetched names. -/
def dataSourceRequests (existingSources : List DataSource) :
    List DataSource → List PostgreSQLDataSourceModel
  | [] => []
  | d :: rest =>
      (match findExistingByConnection d existingSources with
       | some _ => []
       | none => [buildDataSourceModel { d with name := resolveName existingSources d.name }]) ++
        dataSourceRequests existingSources rest

/-- The requests of one `provisionDataSource` call depend only on the desired
source and the pre-fetched list, never on the creation call's outcome. -/
theorem provisionDataSource_requests
    (create : PostgreSQLDataSourceModel → Except ApiError CreateDataSourceResponse)
    (d : DataSource) (ex : List DataSource) :
    (provisionDataSource create d ex).2 =
      match findExistingByConnection d ex with
      | some _ => []
      | none => [buildDataSourceModel { d with name := resolveName ex d.name }] := by
  cases hconn : findExistingByConnection d ex with
  | some src => simp [provisionDataSource, hconn]
  | none =>
    cases hcr : create (buildDataSourceModel { d with name := resolveName ex d.name }) with
    | error e =>
      simp only [buildDataSourceModel] at hcr
      by_cases h9 : is409 e = true <;>
        simp [provisionDataSource, hconn, hcr, h9, buildDataSourceModel]
    | ok resp =>
      simp only [buildDataSourceModel] at hcr
      simp [provisionDataSource, hconn, hcr, buildDataSourceModel]

/-- The modelled server rejects a data-source creation only with 409. -/
theorem serverCreateDataSource_error_is409 (s : ServerState) (m : PostgreSQLDataSourceModel)
    (e : ApiError) (h : (serverCreateDataSource s m).1 = .error e) : is409 e = true := by
  by_cases hn : s.dataSources.any (fun ds => ds.name == m.name) = true
  · simp only [serverCreateDataSource, hn, if_true] at h
    cases h
    rfl
  · simp [serverCreateDataSource, hn] at h

/-- Against the modelled server a single data-source reconciliation never
fails: a 409 is swallowed and no other creation failure exists. -/
theorem provisionDataSourceS_ok (s : ServerState) (d : DataSource) (ex : List DataSource) :
    ∃ resp, (provisionDataSourceS s d ex).1 = .ok resp := by
  cases hconn : findExistingByConnection d ex with
  | some src =>
    refine ⟨⟨⟨src.id, src.uid, src.name, "Already exists"⟩⟩, ?_⟩
    simp [provisionDataSourceS, provisionDataSource, hconn]
  | none =>
    cases hcr : (serverCreateDataSource s
        (buildDataSourceModel { d with name := resolveName ex d.name })).1 with
    | ok r =>
      refine ⟨r, ?_⟩
      simp only [buildDataSourceModel] at hcr
      simp [provisionDataSourceS, provisionDataSource, hconn, hcr, buildDataSourceModel]
    | error e =>
      have h9 := serverCreateDataSource_error_is409 _ _ _ hcr
      refine ⟨⟨⟨0, "", resolveName ex d.name, "Data source already exists (409 Conflict)"⟩⟩, ?_⟩
      simp only [buildDataSourceModel] at hcr
      simp [provisionDataSourceS, provisionDataSource, hconn, hcr, h9, buildDataSourceModel]

/-- The data-source loop always succeeds against the modelled server, and its
request trace extends the accumulator by exactly the requests computed from
the pre-fetched list. -/
theorem provisionDataSourcesGo_spec :
    ∀ (desired : List DataSource) (ex : List DataSource) (s : ServerState)
      (acc : List CreateDataSourceResponse) (reqs : List PostgreSQLDataSourceModel),
      (∃ resps, (provisionDataSourcesGo ex desired s acc reqs).1 = .ok resps) ∧
      (provisionDataSourcesGo ex desired s acc reqs).2.2 =
        reqs ++ dataSourceRequests ex desired := by
  intro desired
  induction desired with
  | nil =>
    intro ex s acc reqs
    exact ⟨⟨acc, rfl⟩, by simp [provisionDataSourcesGo, dataSourceRequests]⟩
  | cons d rest ih =>
    intro ex s acc reqs
    rcases provisionDataSourceS_ok s d ex with ⟨resp, hok⟩
    have hunf : provisionDataSourcesGo ex (d :: rest) s acc reqs =
        provisionDataSourcesGo ex rest (provisionDataSourceS s d ex).2.1 (acc ++ [resp])
          (reqs ++ (provisionDataSourceS s d ex).2.2) := by
      simp only [provisionDataSourcesGo, hok]
    rw [hunf]
    rcases ih ex (provisionDataSourceS s d ex).2.1 (acc ++ [resp])
      (reqs ++ (provisionDataSourceS s d ex).2.2) with ⟨hok2, hreq2⟩
    refine ⟨hok2, ?_⟩
    rw [hreq2]
    have hr : (provisionDataSourceS s d ex).2.2 =
        (match findExistingByConnection d ex with
         | some _ => []
         | none => [buildDataSourceModel { d with name := resolveName ex d.name }]) :=
      provisionDataSource_requests _ d ex
    rw [hr]
    simp [dataSourceRequests, List.append_assoc]

/-- The server for the concrete C10 scenario: one record named m. -/
def s10 : ServerState :=
  { dataSources := [{ name := "m", type := "pg", url := "h:5432", database := "d" }] }

/-- The configuration for the concrete C10 scenario: two desired data sources
with distinct connection identities, named m and m_1. -/
def cfg10 : Config :=
  { dataSources := [{ name := "m", type := "pg", url := "a:1", database := "d" },
                    { name := "m_1", type := "pg", url := "b:1", database := "d" }] }

/-- Claim C10: within a run the existing data-source list is read once, at the
start of `provisionDataSources`, and every desired source's connection match
and name resolution consult only that pre-fetched list — the request trace
equals `dataSourceRequests` computed purely from the pre-fetched records,
whatever creations happen in between (and the loop itself never fails against
the modelled server). Consequently, in the concrete scenario of two desired
sources with distinct connections named m and m_1 against a server holding
only a record named m, both creation requests carry the same name m_1. -/
theorem C10_single_prefetch (s : ServerState) (cfg : Config) :
    (provisionDataSourcesS s cfg).2.2 = dataSourceRequests s.dataSources cfg.dataSources ∧
    (∃ resps, (provisionDataSourcesS s cfg).1 = .ok resps) ∧
    ((provisionDataSourcesS s10 cfg10).2.2).map (fun m => m.name) = ["m_1", "m_1"] := by
  rcases provisionDataSourcesGo_spec cfg.dataSources s.dataSources s [] [] with ⟨hok, hreq⟩
  exact ⟨by simpa [provisionDataSourcesS] using hreq,
    by simpa [provisionDataSourcesS] using hok, by decide⟩

/-! ### Groundwork for the re-run analysis -/

theorem lookupAssoc_setAssoc_ne {β : Type} (m : List (String × β)) (key key' : String) (v : β)
    (h : (key' == key) = false) :
    lookupAssoc (setAssoc m key v) key' = lookupAssoc m key' := by
  have hne : key' ≠ key := by simpa using h
  have hsym : (key == key') = false := by simpa using Ne.symm hne
  induction m with
  | nil => simp [setAssoc, lookupAssoc, hsym]
  | cons e rest ih =>
    obtain ⟨k, w⟩ := e
    by_cases hk : (k == key) = true
    · have hkeq : k = key := by simpa using hk
      subst hkeq
      simp [setAssoc, lookupAssoc, hsym]
    · simp only [Bool.not_eq_true] at hk
      simp [setAssoc, hk, lookupAssoc, ih]

theorem freshUID_ne_empty (n : Nat) : freshUID n ≠ "" := by
  intro h
  have hlen : (freshUID n).length = 0 := by rw [h]; rfl
  have h4 : ("uid-" : String).length = 4 := rfl
  simp [freshUID, String.length_append, h4] at hlen

theorem freshUID_injective : Function.Injective freshUID := by
  intro a b h
  have hd : (toString a).data = (toString b).data := by
    simpa [freshUID, String.data_append] using congrArg String.data h
  exact natToString_injective (string_data_injective hd)

/-- Well-formedness of the modelled server state: folder and dashboard UIDs
are pairwise distinct, non-empty, and outside the range of identifiers the
counter has not drawn yet. -/
structure WF (s : ServerState) : Prop where
  foldersNodup : (s.folders.map (·.uid)).Nodup
  folderUidNe : ∀ f ∈ s.folders, f.uid ≠ ""
  folderFresh : ∀ f ∈ s.folders, ∀ n, s.nextId ≤ n → f.uid ≠ freshUID n
  dashNodup : (s.dashboards.map (·.uid)).Nodup
  dashUidNe : ∀ d ∈ s.dashboards, d.uid ≠ ""
  dashFresh : ∀ d ∈ s.dashboards, ∀ n, s.nextId ≤ n → d.uid ≠ freshUID n

theorem WF_createDataSource (s : ServerState) (m : PostgreSQLDataSourceModel) (h : WF s) :
    WF (serverCreateDataSource s m).2 := by
  unfold serverCreateDataSource
  by_cases hn : s.dataSources.any (fun ds => ds.name == m.name) = true
  · simpa [hn] using h
  · simp only [hn, Bool.false_eq_true, if_false]
    exact { foldersNodup := h.foldersNodup
            folderUidNe := h.folderUidNe
            folderFresh := fun f hf n hnle => h.folderFresh f hf n (Nat.le_of_succ_le hnle)
            dashNodup := h.dashNodup
            dashUidNe := h.dashUidNe
            dashFresh := fun d hd n hnle => h.dashFresh d hd n (Nat.le_of_succ_le hnle) }

theorem WF_createFolder (s : ServerState) (title : String) (h : WF s) :
    WF (serverCreateFolder s title).2 := by
  unfold serverCreateFolder
  by_cases hn : s.folders.any (fun f => f.title == title) = true
  · simpa [hn] using h
  · simp only [hn, Bool.false_eq_true, if_false]
    refine { foldersNodup := ?_
             folderUidNe := ?_
             folderFresh := ?_
             dashNodup := h.dashNodup
             dashUidNe := h.dashUidNe
             dashFresh := fun d hd n hnle => h.dashFresh d hd n (Nat.le_of_succ_le hnle) }
    · simp only [List.map_append, List.map_cons, List.map_nil]
      rw [List.nodup_append]
      refine ⟨h.foldersNodup, List.nodup_singleton _, ?_⟩
      intro u hu
      simp only [List.mem_singleton]
      rcases List.mem_map.mp hu with ⟨f, hf, rfl⟩
      intro hbad
      exact h.folderFresh f hf s.nextId (le_refl _) hbad
    · intro f hf
      rcases List.mem_append.mp hf with hf | hf
      · exact h.folderUidNe f hf
      · simp only [List.mem_singleton] at hf
        subst hf
        exact freshUID_ne_empty s.nextId
    · intro f hf n hnle
      have hnle' : s.nextId + 1 ≤ n := hnle
      rcases List.mem_append.mp hf with hf | hf
      · exact h.folderFresh f hf n (Nat.le_of_succ_le hnle')
      · simp only [List.mem_singleton] at hf
        subst hf
        intro hbad
        have := freshUID_injective hbad
        omega

theorem importDashboard_frame (s : ServerState) (req : DashboardImportRequest) :
    (serverImportDashboard s req).2.folders = s.folders ∧
    (serverImportDashboard s req).2.dataSources = s.dataSources := by
  by_cases hc : (getStrField req.dashboard "uid" != "" &&
      s.dashboards.any fun d => d.uid == getStrField req.dashboard "uid") = true <;>
    simp [serverImportDashboard, hc]

theorem WF_importDashboard (s : ServerState) (req : DashboardImportRequest) (h : WF s) :
    WF (serverImportDashboard s req).2 := by
  by_cases hc : (getStrField req.dashboard "uid" != "" &&
      s.dashboards.any fun d => d.uid == getStrField req.dashboard "uid") = true
  all_goals simp only [serverImportDashboard, hc, Bool.false_eq_true, if_true, if_false]
  · -- in-place overwrite: every entry keeps its uid
    have huid : ∀ d : StoredDashboard,
        ((if d.uid == getStrField req.dashboard "uid" then
            { d with title := getStrField req.dashboard "title", folderUID := req.folderUID }
          else d) : StoredDashboard).uid = d.uid := by
      intro d; split <;> rfl
    refine { foldersNodup := h.foldersNodup
             folderUidNe := h.folderUidNe
             folderFresh := h.folderFresh
             dashNodup := ?_
             dashUidNe := ?_
             dashFresh := ?_ }
    · simp only [List.map_map]
      have heq : (s.dashboards.map ((fun x : StoredDashboard => x.uid) ∘ fun d =>
          if d.uid == getStrField req.dashboard "uid" then
            { d with title := getStrField req.dashboard "title", folderUID := req.folderUID }
          else d)) = s.dashboards.map (·.uid) :=
        List.map_congr_left (fun d _ => huid d)
      rw [heq]
      exact h.dashNodup
    · intro d hd
      rcases List.mem_map.mp hd with ⟨d0, hd0, rfl⟩
      rw [huid d0]
      exact h.dashUidNe d0 hd0
    · intro d hd n hnle
      rcases List.mem_map.mp hd with ⟨d0, hd0, rfl⟩
      rw [huid d0]
      exact h.dashFresh d0 hd0 n hnle
  · -- append a fresh dashboard
    refine { foldersNodup := h.foldersNodup
             folderUidNe := h.folderUidNe
             folderFresh := fun f hf n hnle => h.folderFresh f hf n (Nat.le_of_succ_le hnle)
             dashNodup := ?_
             dashUidNe := ?_
             dashFresh := ?_ }
    · simp only [List.map_append, List.map_cons, List.map_nil]
      rw [List.nodup_append]
      refine ⟨h.dashNodup, List.nodup_singleton _, ?_⟩
      intro u hu
      simp only [List.mem_singleton]
      rcases List.mem_map.mp hu with ⟨d, hd, rfl⟩
      intro hbad
      exact h.dashFresh d hd s.nextId (le_refl _) hbad
    · intro d hd
      rcases List.mem_append.mp hd with hd | hd
      · exact h.dashUidNe d hd
      · simp only [List.mem_singleton] at hd
        subst hd
        exact freshUID_ne_empty s.nextId
    · intro d hd n hnle
      have hnle' : s.nextId + 1 ≤ n := hnle
      rcases List.mem_append.mp hd with hd | hd
      · exact h.dashFresh d hd n (Nat.le_of_succ_le hnle')
      · simp only [List.mem_singleton] at hd
        subst hd
        intro hbad
        have := freshUID_injective hbad
        omega

/-! ### The data-source phase across two runs -/

theorem findExistingByConnection_isSome_iff (d : DataSource) (l : List DataSource) :
    (findExistingByConnection d l).isSome = true ↔
      ∃ r ∈ l, r.type = d.type ∧ r.url = d.url ∧ r.database = d.database := by
  simp [findExistingByConnection, List.find?_isSome, and_assoc]

theorem nameConflict_false_iff (l : List DataSource) (n : String) :
    nameConflict l n = false ↔ ∀ r ∈ l, r.name ≠ n := by
  simp [nameConflict]

theorem serverCreateDataSource_frame (s : ServerState) (m : PostgreSQLDataSourceModel) :
    (serverCreateDataSource s m).2.folders = s.folders ∧
    (serverCreateDataSource s m).2.dashboards = s.dashboards := by
  by_cases hn : s.dataSources.any (fun ds => ds.name == m.name) = true <;>
    simp [serverCreateDataSource, hn]

theorem foldCreate_frame (ms : List PostgreSQLDataSourceModel) :
    ∀ s : ServerState,
      (ms.foldl (fun st m => (serverCreateDataSource st m).2) s).folders = s.folders ∧
      (ms.foldl (fun st m => (serverCreateDataSource st m).2) s).dashboards = s.dashboards ∧
      (WF s → WF (ms.foldl (fun st m => (serverCreateDataSource st m).2) s)) := by
  induction ms with
  | nil => intro s; exact ⟨rfl, rfl, id⟩
  | cons m rest ih =>
    intro s
    rcases ih (serverCreateDataSource s m).2 with ⟨h1, h2, h3⟩
    rcases serverCreateDataSource_frame s m with ⟨hf, hd⟩
    exact ⟨by simpa [hf] using h1, by simpa [hd] using h2,
      fun hwf => h3 (WF_createDataSource s m hwf)⟩

theorem dsGo_frame (ex : List DataSource) :
    ∀ (desired : List DataSource) (s : ServerState) (acc : List CreateDataSourceResponse)
      (reqs : List PostgreSQLDataSourceModel),
      (provisionDataSourcesGo ex desired s acc reqs).2.1.folders = s.folders ∧
      (provisionDataSourcesGo ex desired s acc reqs).2.1.dashboards = s.dashboards ∧
      (WF s → WF (provisionDataSourcesGo ex desired s acc reqs).2.1) := by
  intro desired
  induction desired with
  | nil => intro s acc reqs; exact ⟨rfl, rfl, id⟩
  | cons d rest ih =>
    intro s acc reqs
    rcases provisionDataSourceS_ok s d ex with ⟨resp, hok⟩
    have hunf : provisionDataSourcesGo ex (d :: rest) s acc reqs =
        provisionDataSourcesGo ex rest (provisionDataSourceS s d ex).2.1 (acc ++ [resp])
          (reqs ++ (provisionDataSourceS s d ex).2.2) := by
      simp only [provisionDataSourcesGo, hok]
    rw [hunf]
    rcases ih (provisionDataSourceS s d ex).2.1 (acc ++ [resp])
      (reqs ++ (provisionDataSourceS s d ex).2.2) with ⟨h1, h2, h3⟩
    rcases foldCreate_frame (provisionDataSource
        (fun m => (serverCreateDataSource s m).1) d ex).2 s with ⟨hf, hd, hwf⟩
    exact ⟨h1.trans hf, h2.trans hd, fun h => h3 (hwf h)⟩

/-- A connection-matched data source leaves the server untouched and issues
no request. -/
theorem provisionDataSourceS_step_some (s : ServerState) (d : DataSource)
    (ex : List DataSource) (src : DataSource)
    (hconn : findExistingByConnection d ex = some src) :
    (provisionDataSourceS s d ex).2.1 = s ∧ (provisionDataSourceS s d ex).2.2 = [] := by
  constructor <;> simp [provisionDataSourceS, provisionDataSource, hconn]

/-- A data source with no connection match and a free resolved name creates
exactly one record, carrying the desired connection under the resolved name
and the fixed postgres type. -/
theorem provisionDataSourceS_step_none (s : ServerState) (d : DataSource)
    (ex : List DataSource)
    (hconn : findExistingByConnection d ex = none)
    (hfree : s.dataSources.any (fun r => r.name == resolveName ex d.name) = false) :
    (provisionDataSourceS s d ex).2.1 =
      ServerState.mk
        (s.dataSources ++ [DataSource.mk (Int.ofNat s.nextId) (freshUID s.nextId)
          (resolveName ex d.name) "grafana-postgresql-datasource" d.url d.user d.password
          d.sslMode false d.database])
        s.folders s.dashboards (s.nextId + 1) ∧
    (provisionDataSourceS s d ex).2.2 =
      [buildDataSourceModel { d with name := resolveName ex d.name }] := by
  have hname : (buildDataSourceModel { d with name := resolveName ex d.name }).name =
      resolveName ex d.name := rfl
  have hreq := provisionDataSource_requests (fun m => (serverCreateDataSource s m).1) d ex
  rw [hconn] at hreq
  have hstate : (provisionDataSourceS s d ex).2.1 =
      (provisionDataSource (fun m => (serverCreateDataSource s m).1) d ex).2.foldl
        (fun st m => (serverCreateDataSource st m).2) s := rfl
  constructor
  · rw [hstate, hreq]
    simp only [List.foldl_cons, List.foldl_nil]
    simp [serverCreateDataSource, hfree, buildDataSourceModel]
  · exact hreq

/-- Run-1 shape of the data-source loop: the server gains only records named
after issued requests, and afterwards every desired data source has a
connection match (under the fixed-type hypothesis and pairwise-distinct
resolved request names). -/
theorem dsGo_run1 (ex : List DataSource) :
    ∀ (desired : List DataSource) (s : ServerState) (acc : List CreateDataSourceResponse)
      (reqs : List PostgreSQLDataSourceModel) (extra : List DataSource),
      s.dataSources = ex ++ extra →
      (∀ r ∈ extra, ∀ m ∈ dataSourceRequests ex desired, r.name ≠ m.name) →
      ((dataSourceRequests ex desired).map (fun m => m.name)).Nodup →
      (∀ d ∈ desired, d.type = "grafana-postgresql-datasource") →
      ∃ extra2,
        (provisionDataSourcesGo ex desired s acc reqs).2.1.dataSources =
          ex ++ extra ++ extra2 ∧
        (∀ r ∈ extra2, ∃ m ∈ dataSourceRequests ex desired, r.name = m.name) ∧
        (∀ d ∈ desired,
          ∃ r ∈ (provisionDataSourcesGo ex desired s acc reqs).2.1.dataSources,
            r.type = d.type ∧ r.url = d.url ∧ r.database = d.database) := by
  intro desired
  induction desired with
  | nil =>
    intro s acc reqs extra hpre hdisj hnodup htype
    refine ⟨[], ?_, by simp, by simp⟩
    simpa [provisionDataSourcesGo] using hpre
  | cons d rest ih =>
    intro s acc reqs extra hpre hdisj hnodup htype
    rcases provisionDataSourceS_ok s d ex with ⟨resp, hok⟩
    have hunf : provisionDataSourcesGo ex (d :: rest) s acc reqs =
        provisionDataSourcesGo ex rest (provisionDataSourceS s d ex).2.1 (acc ++ [resp])
          (reqs ++ (provisionDataSourceS s d ex).2.2) := by
      simp only [provisionDataSourcesGo, hok]
    rw [hunf]
    cases hconn : findExistingByConnection d ex with
    | some src =>
      rcases provisionDataSourceS_step_some s d ex src hconn with ⟨hst, -⟩
      rw [hst]
      have hreqs : dataSourceRequests ex (d :: rest) = dataSourceRequests ex rest := by
        simp [dataSourceRequests, hconn]
      rw [hreqs] at hdisj hnodup
      rcases ih s (acc ++ [resp]) (reqs ++ (provisionDataSourceS s d ex).2.2) extra hpre
        hdisj hnodup (fun d' hd' => htype d' (List.mem_cons_of_mem d hd')) with
        ⟨extra2, h1, h2, h3⟩
      refine ⟨extra2, h1, fun r hr => ?_, fun d' hd' => ?_⟩
      · rcases h2 r hr with ⟨m, hm, hname⟩
        exact ⟨m, by rw [hreqs]; exact hm, hname⟩
      · rcases List.mem_cons.mp hd' with rfl | hd'
        · have hsprop := List.find?_some hconn
          have hsmem := List.mem_of_find?_eq_some hconn
          simp only [Bool.and_eq_true, beq_iff_eq] at hsprop
          refine ⟨src, ?_, hsprop.1.1, hsprop.1.2, hsprop.2⟩
          rw [h1]
          exact List.mem_append.mpr (Or.inl (List.mem_append.mpr (Or.inl hsmem)))
        · exact h3 d' hd'
    | none =>
      have hreqs : dataSourceRequests ex (d :: rest) =
          buildDataSourceModel { d with name := resolveName ex d.name } ::
            dataSourceRequests ex rest := by
        simp [dataSourceRequests, hconn]
      have hmhead : buildDataSourceModel { d with name := resolveName ex d.name } ∈
          dataSourceRequests ex (d :: rest) := by rw [hreqs]; exact List.mem_cons_self _ _
      have hfree : s.dataSources.any (fun r => r.name == resolveName ex d.name) = false := by
        rw [hpre]
        rw [List.any_eq_false]
        intro r hr
        simp only [beq_iff_eq]
        rcases List.mem_append.mp hr with hr | hr
        · exact (nameConflict_false_iff ex (resolveName ex d.name)).mp
            (resolveName_not_conflicting ex d.name) r hr
        · exact hdisj r hr _ hmhead
      rcases provisionDataSourceS_step_none s d ex hconn hfree with ⟨hst, -⟩
      rw [hst]
      set rec : DataSource := DataSource.mk (Int.ofNat s.nextId) (freshUID s.nextId)
        (resolveName ex d.name) "grafana-postgresql-datasource" d.url d.user d.password
        d.sslMode false d.database with hrec
      have hpre' : (ServerState.mk (s.dataSources ++ [rec]) s.folders s.dashboards
          (s.nextId + 1)).dataSources = ex ++ (extra ++ [rec]) := by
        simp [hpre, List.append_assoc]
      have hnodup2 : ((buildDataSourceModel { d with name := resolveName ex d.name }).name ∉
          (dataSourceRequests ex rest).map (fun m => m.name)) ∧
          ((dataSourceRequests ex rest).map (fun m => m.name)).Nodup := by
        rw [hreqs] at hnodup
        rw [List.map_cons, List.nodup_cons] at hnodup
        exact hnodup
      have hnodup' : ((dataSourceRequests ex rest).map (fun m => m.name)).Nodup := hnodup2.2
      have hheadnotin : ∀ m ∈ dataSourceRequests ex rest,
          (buildDataSourceModel { d with name := resolveName ex d.name }).name ≠ m.name := by
        intro m hm hbad
        exact hnodup2.1 (by rw [hbad]; exact List.mem_map_of_mem (fun m => m.name) hm)
      have hdisj' : ∀ r ∈ extra ++ [rec], ∀ m ∈ dataSourceRequests ex rest,
          r.name ≠ m.name := by
        intro r hr m hm
        rcases List.mem_append.mp hr with hr | hr
        · exact hdisj r hr m (by rw [hreqs]; exact List.mem_cons_of_mem _ hm)
        · simp only [List.mem_singleton] at hr
          subst hr
          exact hheadnotin m hm
      rcases ih (ServerState.mk (s.dataSources ++ [rec]) s.folders s.dashboards (s.nextId + 1))
        (acc ++ [resp]) (reqs ++ (provisionDataSourceS s d ex).2.2) (extra ++ [rec]) hpre'
        hdisj' hnodup' (fun d' hd' => htype d' (List.mem_cons_of_mem d hd')) with
        ⟨extra2, h1, h2, h3⟩
      refine ⟨rec :: extra2, ?_, fun r hr => ?_, fun d' hd' => ?_⟩
      · rw [h1]
        simp [List.append_assoc]
      · rcases List.mem_cons.mp hr with rfl | hr
        · exact ⟨buildDataSourceModel { d with name := resolveName ex d.name }, hmhead, rfl⟩
        · rcases h2 r hr with ⟨m, hm, hname⟩
          exact ⟨m, by rw [hreqs]; exact List.mem_cons_of_mem _ hm, hname⟩
      · rcases List.mem_cons.mp hd' with rfl | hd'
        · refine ⟨rec, ?_, ?_, rfl, rfl⟩
          · rw [h1]
            exact List.mem_append.mpr (Or.inl (List.mem_append.mpr (Or.inr
              (List.mem_append.mpr (Or.inr (List.mem_singleton.mpr rfl))))))
          · exact (htype d' (List.mem_cons_self d' rest)).symm
        · exact h3 d' hd'

/-- Run-2 shape of the data-source loop: when every desired data source has a
connection match in the pre-fetched list, the loop succeeds, issues no
creation request, and leaves the server untouched. -/
theorem dsGo_run2 :
    ∀ (desired : List DataSource) (ex : List DataSource) (s : ServerState)
      (acc : List CreateDataSourceResponse) (reqs : List PostgreSQLDataSourceModel),
      (∀ d ∈ desired, (findExistingByConnection d ex).isSome = true) →
      ∃ resps, provisionDataSourcesGo ex desired s acc reqs = (.ok resps, s, reqs) := by
  intro desired
  induction desired with
  | nil => intro ex s acc reqs hcov; exact ⟨acc, rfl⟩
  | cons d rest ih =>
    intro ex s acc reqs hcov
    rcases Option.isSome_iff_exists.mp (hcov d (List.mem_cons_self d rest)) with ⟨src, hconn⟩
    have hres : (provisionDataSourceS s d ex).1 =
        .ok ⟨⟨src.id, src.uid, src.name, "Already exists"⟩⟩ := by
      simp [provisionDataSourceS, provisionDataSource, hconn]
    rcases provisionDataSourceS_step_some s d ex src hconn with ⟨hst, hrq⟩
    have hunf : provisionDataSourcesGo ex (d :: rest) s acc reqs =
        provisionDataSourcesGo ex rest s
          (acc ++ [⟨⟨src.id, src.uid, src.name, "Already exists"⟩⟩]) reqs := by
      simp only [provisionDataSourcesGo, hres, hst, hrq, List.append_nil]
    rw [hunf]
    exact ih ex s _ reqs (fun d' hd' => hcov d' (List.mem_cons_of_mem d hd'))

/-! ### The folder phase across two runs -/

theorem lookupAssoc_setAssoc_cases {β : Type} (m : List (String × β)) (k t : String) (v : β) :
    lookupAssoc (setAssoc m k v) t = if t = k then some v else lookupAssoc m t := by
  by_cases h : t = k
  · subst h
    simp [lookupAssoc_setAssoc]
  · rw [lookupAssoc_setAssoc_ne m k t v (by simpa using h)]
    simp [h]

/-- Validity of a folder mapping against a folder list: every mapped UID is a
real folder's UID, under the mapped title. -/
def MappingValid (mapping : List (String × FolderMapping))
    (folders : List FolderResponse) : Prop :=
  ∀ t fm, lookupAssoc mapping t = some fm → ∃ fr ∈ folders, fr.uid = fm.uid ∧ fr.title = t

theorem MappingValid_mono {mapping : List (String × FolderMapping)}
    {folders more : List FolderResponse} (h : MappingValid mapping folders) :
    MappingValid mapping (folders ++ more) := by
  intro t fm hfm
  rcases h t fm hfm with ⟨fr, hmem, h1, h2⟩
  exact ⟨fr, List.mem_append.mpr (Or.inl hmem), h1, h2⟩

theorem createFolderIfNotExistsS_found (s : ServerState) (title : String) (fr : FolderResponse)
    (hfind : s.folders.find? (fun f => f.title == title) = some fr) :
    createFolderIfNotExistsS s title = (.ok fr, s, []) := by
  simp [createFolderIfNotExistsS, hfind]

theorem createFolderIfNotExistsS_absent (s : ServerState) (title : String)
    (hfind : s.folders.find? (fun f => f.title == title) = none) :
    createFolderIfNotExistsS s title =
      (.ok (FolderResponse.mk (Int.ofNat s.nextId) (freshUID s.nextId) title ""),
       ServerState.mk s.dataSources
         (s.folders ++ [FolderResponse.mk (Int.ofNat s.nextId) (freshUID s.nextId) title ""])
         s.dashboards (s.nextId + 1),
       [title]) := by
  have hany : s.folders.any (fun f => f.title == title) = false := by
    rw [List.any_eq_false]
    intro f hf
    have := List.find?_eq_none.mp hfind f hf
    simpa using this
  simp [createFolderIfNotExistsS, hfind, serverCreateFolder, hany, CreateFolder]

/-- Run-1 shape of the folder loop: it always succeeds, only appends folders,
covers every configured folder name, and produces a valid mapping whose keys
are the configured names plus the inherited ones. -/
theorem folderGo_run1 :
    ∀ (folders : List Folder) (cfga : Config) (s : ServerState) (reqs : List String),
      MappingValid cfga.foldersMapping s.folders →
      ∃ cfg2 newFolders,
        (provisionFoldersGoS folders cfga s reqs).1 = .ok cfg2 ∧
        (provisionFoldersGoS folders cfga s reqs).2.1.folders = s.folders ++ newFolders ∧
        (provisionFoldersGoS folders cfga s reqs).2.1.dataSources = s.dataSources ∧
        (provisionFoldersGoS folders cfga s reqs).2.1.dashboards = s.dashboards ∧
        (WF s → WF (provisionFoldersGoS folders cfga s reqs).2.1) ∧
        (∀ fl ∈ folders, ∃ fr ∈ (provisionFoldersGoS folders cfga s reqs).2.1.folders,
          fr.title = fl.name) ∧
        (∀ t, (lookupAssoc cfg2.foldersMapping t).isSome = true ↔
          ((lookupAssoc cfga.foldersMapping t).isSome = true ∨ t ∈ folders.map (·.name))) ∧
        MappingValid cfg2.foldersMapping (provisionFoldersGoS folders cfga s reqs).2.1.folders ∧
        cfg2.dataSources = cfga.dataSources ∧ cfg2.folders = cfga.folders ∧
        cfg2.dashboards = cfga.dashboards := by
  intro folders
  induction folders with
  | nil =>
    intro cfga s reqs hvalid
    refine ⟨cfga, [], rfl, by simp [provisionFoldersGoS], rfl, rfl, id, by simp, ?_, ?_,
      rfl, rfl, rfl⟩
    · intro t
      simp
    · simpa [provisionFoldersGoS] using hvalid
  | cons fl rest ih =>
    intro cfga s reqs hvalid
    cases hfind : s.folders.find? (fun f => f.title == fl.name) with
    | some fr =>
      have hstep := createFolderIfNotExistsS_found s fl.name fr hfind
      have hfrmem := List.mem_of_find?_eq_some hfind
      have hfrtitle : fr.title = fl.name := by
        have := List.find?_some hfind
        simpa using this
      have hunf : provisionFoldersGoS (fl :: rest) cfga s reqs =
          provisionFoldersGoS rest
            (Config.mk cfga.dataSources cfga.folders cfga.dashboards
              (setAssoc cfga.foldersMapping fr.title ⟨fr.id, fr.uid, fr.title⟩)) s reqs := by
        simp only [provisionFoldersGoS, hstep, List.append_nil]
      have hvalid' : MappingValid
          (setAssoc cfga.foldersMapping fr.title ⟨fr.id, fr.uid, fr.title⟩) s.folders := by
        intro t fm hfm
        rw [lookupAssoc_setAssoc_cases] at hfm
        by_cases ht : t = fr.title
        · rw [if_pos ht] at hfm
          cases hfm
          exact ⟨fr, hfrmem, rfl, ht.symm⟩
        · rw [if_neg ht] at hfm
          exact hvalid t fm hfm
      rcases ih (Config.mk cfga.dataSources cfga.folders cfga.dashboards
          (setAssoc cfga.foldersMapping fr.title ⟨fr.id, fr.uid, fr.title⟩)) s reqs hvalid' with
        ⟨cfg2, newFolders, h1, h2, h3, h4, h5, h6, h7, h8, h9, h10, h11⟩
      rw [hunf]
      refine ⟨cfg2, newFolders, h1, h2, h3, h4, h5, ?_, ?_, h8, by simpa using h9,
        by simpa using h10, by simpa using h11⟩
      · intro fl' hfl'
        rcases List.mem_cons.mp hfl' with rfl | hfl'
        · exact ⟨fr, by rw [h2]; exact List.mem_append.mpr (Or.inl hfrmem), hfrtitle⟩
        · exact h6 fl' hfl'
      · intro t
        rw [h7 t]
        simp only [lookupAssoc_setAssoc_cases]
        by_cases ht : t = fr.title
        · simp [ht, hfrtitle.symm]
        · simp only [if_neg ht, List.map_cons, List.mem_cons]
          constructor
          · rintro (h | h)
            · exact Or.inl h
            · exact Or.inr (Or.inr h)
          · rintro (h | h | h)
            · exact Or.inl h
            · exact absurd (h.trans hfrtitle.symm) ht
            · exact Or.inr h
    | none =>
      have hstep := createFolderIfNotExistsS_absent s fl.name hfind
      set fo : FolderResponse :=
        FolderResponse.mk (Int.ofNat s.nextId) (freshUID s.nextId) fl.name "" with hfo
      set s' : ServerState :=
        ServerState.mk s.dataSources (s.folders ++ [fo]) s.dashboards (s.nextId + 1) with hs'
      have hunf : provisionFoldersGoS (fl :: rest) cfga s reqs =
          provisionFoldersGoS rest
            (Config.mk cfga.dataSources cfga.folders cfga.dashboards
              (setAssoc cfga.foldersMapping fo.title ⟨fo.id, fo.uid, fo.title⟩)) s'
            (reqs ++ [fl.name]) := by
        simp only [provisionFoldersGoS, hstep]
      have hvalid' : MappingValid
          (setAssoc cfga.foldersMapping fo.title ⟨fo.id, fo.uid, fo.title⟩) s'.folders := by
        intro t fm hfm
        rw [lookupAssoc_setAssoc_cases] at hfm
        by_cases ht : t = fo.title
        · rw [if_pos ht] at hfm
          cases hfm
          exact ⟨fo, by simp [hs'], rfl, ht.symm⟩
        · rw [if_neg ht] at hfm
          rcases hvalid t fm hfm with ⟨fr, hmem, hu, htt⟩
          exact ⟨fr, by simp [hs', List.mem_append.mpr (Or.inl hmem)], hu, htt⟩
      rcases ih (Config.mk cfga.dataSources cfga.folders cfga.dashboards
          (setAssoc cfga.foldersMapping fo.title ⟨fo.id, fo.uid, fo.title⟩)) s'
          (reqs ++ [fl.name]) hvalid' with
        ⟨cfg2, newFolders, h1, h2, h3, h4, h5, h6, h7, h8, h9, h10, h11⟩
      rw [hunf]
      have hWFs' : WF s → WF s' := by
        intro hwf
        have := WF_createFolder s fl.name hwf
        have hany : s.folders.any (fun f => f.title == fl.name) = false := by
          rw [List.any_eq_false]
          intro f hf
          have := List.find?_eq_none.mp hfind f hf
          simpa using this
        simpa [serverCreateFolder, hany, hs', hfo] using this
      refine ⟨cfg2, fo :: newFolders, h1, ?_, by rw [h3], by rw [h4],
        fun hwf => h5 (hWFs' hwf), ?_, ?_, h8, by simpa using h9, by simpa using h10,
        by simpa using h11⟩
      · rw [h2]
        simp [hs', List.append_assoc]
      · intro fl' hfl'
        rcases List.mem_cons.mp hfl' with rfl | hfl'
        · refine ⟨fo, ?_, rfl⟩
          rw [h2]
          exact List.mem_append.mpr (Or.inl (by simp [hs']))
        · exact h6 fl' hfl'
      · intro t
        rw [h7 t]
        simp only [lookupAssoc_setAssoc_cases]
        by_cases ht : t = fo.title
        · simp [ht, hfo]
        · have htname : t ≠ fl.name := ht
          simp only [if_neg ht, List.map_cons, List.mem_cons]
          constructor
          · rintro (h | h)
            · exact Or.inl h
            · exact Or.inr (Or.inr h)
          · rintro (h | h | h)
            · exact Or.inl h
            · exact absurd h htname
            · exact Or.inr h

/-- Run-2 shape of the folder loop: with every configured folder already on
the server, the loop succeeds without touching the server or issuing any
creation request, and produces a valid mapping with the same keys. -/
theorem folderGo_run2 :
    ∀ (folders : List Folder) (cfga : Config) (s : ServerState) (reqs : List String),
      (∀ fl ∈ folders, ∃ fr ∈ s.folders, fr.title = fl.name) →
      MappingValid cfga.foldersMapping s.folders →
      ∃ cfg2,
        provisionFoldersGoS folders cfga s reqs = (.ok cfg2, s, reqs) ∧
        (∀ t, (lookupAssoc cfg2.foldersMapping t).isSome = true ↔
          ((lookupAssoc cfga.foldersMapping t).isSome = true ∨ t ∈ folders.map (·.name))) ∧
        MappingValid cfg2.foldersMapping s.folders ∧
        cfg2.dataSources = cfga.dataSources ∧ cfg2.folders = cfga.folders ∧
        cfg2.dashboards = cfga.dashboards := by
  intro folders
  induction folders with
  | nil =>
    intro cfga s reqs hcov hvalid
    exact ⟨cfga, rfl, by simp, hvalid, rfl, rfl, rfl⟩
  | cons fl rest ih =>
    intro cfga s reqs hcov hvalid
    have hsome : (s.folders.find? (fun f => f.title == fl.name)).isSome = true := by
      rw [List.find?_isSome]
      rcases hcov fl (List.mem_cons_self fl rest) with ⟨fr, hmem, htitle⟩
      exact ⟨fr, hmem, by simp [htitle]⟩
    rcases Option.isSome_iff_exists.mp hsome with ⟨fr, hfind⟩
    have hstep := createFolderIfNotExistsS_found s fl.name fr hfind
    have hfrmem := List.mem_of_find?_eq_some hfind
    have hfrtitle : fr.title = fl.name := by
      have := List.find?_some hfind
      simpa using this
    have hunf : provisionFoldersGoS (fl :: rest) cfga s reqs =
        provisionFoldersGoS rest
          (Config.mk cfga.dataSources cfga.folders cfga.dashboards
            (setAssoc cfga.foldersMapping fr.title ⟨fr.id, fr.uid, fr.title⟩)) s reqs := by
      simp only [provisionFoldersGoS, hstep, List.append_nil]
    have hvalid' : MappingValid
        (setAssoc cfga.foldersMapping fr.title ⟨fr.id, fr.uid, fr.title⟩) s.folders := by
      intro t fm hfm
      rw [lookupAssoc_setAssoc_cases] at hfm
      by_cases ht : t = fr.title
      · rw [if_pos ht] at hfm
        cases hfm
        exact ⟨fr, hfrmem, rfl, ht.symm⟩
      · rw [if_neg ht] at hfm
        exact hvalid t fm hfm
    rcases ih (Config.mk cfga.dataSources cfga.folders cfga.dashboards
        (setAssoc cfga.foldersMapping fr.title ⟨fr.id, fr.uid, fr.title⟩)) s reqs
        (fun fl' hfl' => hcov fl' (List.mem_cons_of_mem fl hfl')) hvalid' with
      ⟨cfg2, h1, h2, h3, h4, h5, h6⟩
    rw [hunf]
    refine ⟨cfg2, h1, ?_, h3, by simpa using h4, by simpa using h5, by simpa using h6⟩
    intro t
    rw [h2 t]
    simp only [lookupAssoc_setAssoc_cases]
    by_cases ht : t = fr.title
    · simp [ht, hfrtitle.symm]
    · simp only [if_neg ht, List.map_cons, List.mem_cons]
      constructor
      · rintro (h | h)
        · exact Or.inl h
        · exact Or.inr (Or.inr h)
      · rintro (h | h | h)
        · exact Or.inl h
        · exact absurd (h.trans hfrtitle.symm) ht
        · exact Or.inr h

/-! ### The dashboard phase across two runs -/

/-- The condition under which a stored dashboard satisfies the search
predicate of `FindFirstDashboardByFolderAndName` for a wanted (name, folder)
pair, expressed on the stored entry. -/
def matchCond (s : ServerState) (name folder : String) (e : StoredDashboard) : Bool :=
  e.title == name &&
    (folderTitleOf s e.folderUID == folder ||
      (eqFold folder "General" &&
        (folderTitleOf s e.folderUID == "" || eqFold (folderTitleOf s e.folderUID) "General")))

/-- Some stored dashboard matches the wanted (name, folder) pair. -/
def matchExists (s : ServerState) (name folder : String) : Prop :=
  ∃ e ∈ s.dashboards, matchCond s name folder e = true

theorem matchCond_iff (s : ServerState) (N Fo : String) (e : StoredDashboard) :
    matchCond s N Fo e = true ↔
      (e.title = N ∧ (folderTitleOf s e.folderUID = Fo ∨
        (eqFold Fo "General" = true ∧ (folderTitleOf s e.folderUID = "" ∨
          eqFold (folderTitleOf s e.folderUID) "General" = true)))) := by
  simp [matchCond, Bool.and_eq_true, Bool.or_eq_true]

/-- In a well-formed state the empty folder UID resolves to the empty title. -/
theorem folderTitleOf_empty (s : ServerState) (hWF : WF s) : folderTitleOf s "" = "" := by
  unfold folderTitleOf
  cases hfind : s.folders.find? (fun f => f.uid == "") with
  | none => rfl
  | some f =>
    exfalso
    have hmem := List.mem_of_find?_eq_some hfind
    have := List.find?_some hfind
    exact hWF.folderUidNe f hmem (by simpa using this)

/-- In a well-formed state a folder's UID resolves to that folder's title. -/
theorem folderTitleOf_uid (s : ServerState) (hWF : WF s) (fr : FolderResponse)
    (hmem : fr ∈ s.folders) (u : String) (hu : fr.uid = u) :
    folderTitleOf s u = fr.title := by
  unfold folderTitleOf
  cases hfind : s.folders.find? (fun f => f.uid == u) with
  | none =>
    exfalso
    have := List.find?_eq_none.mp hfind fr hmem
    simp [hu] at this
  | some g =>
    have hgmem := List.mem_of_find?_eq_some hfind
    have hgu : g.uid = u := by simpa using List.find?_some hfind
    have : g = fr :=
      List.inj_on_of_nodup_map hWF.foldersNodup hgmem hmem (by rw [hgu, hu])
    rw [this]

/-- The search predicate evaluated on a search entry derived from a stored
dashboard is `matchCond` of the stored dashboard. -/
theorem searchPred_comp (s : ServerState) (N Fo : String) :
    ((fun result : DashboardSearchResponse =>
        result.type == "dash-db" && result.title == N &&
          (result.folderTitle == Fo ||
            (eqFold Fo "General" &&
              (result.folderTitle == "" || eqFold result.folderTitle "General")))) ∘
      (fun d : StoredDashboard =>
        ({ id := d.id, uid := d.uid, title := d.title, type := "dash-db",
           folderUID := d.folderUID,
           folderTitle := folderTitleOf s d.folderUID } : DashboardSearchResponse))) =
      matchCond s N Fo := by
  funext e
  simp [matchCond, Function.comp]

/-- When some stored dashboard matches, `FindFirstDashboardByFolderAndName`
over the modelled search returns a matching stored dashboard's projection. -/
theorem findFirst_of_matchExists (s : ServerState) (N Fo : String)
    (h : matchExists s N Fo) :
    ∃ e ∈ s.dashboards, matchCond s N Fo e = true ∧
      (FindFirstDashboardByFolderAndName (serverSearch s) N Fo).uid = e.uid ∧
      (FindFirstDashboardByFolderAndName (serverSearch s) N Fo).id = e.id := by
  rcases h with ⟨e0, hmem0, hcond0⟩
  unfold FindFirstDashboardByFolderAndName serverSearch
  rw [List.find?_map, searchPred_comp]
  cases hfind : s.dashboards.find? (matchCond s N Fo) with
  | none =>
    exfalso
    have := List.find?_eq_none.mp hfind e0 hmem0
    exact this hcond0
  | some e =>
    exact ⟨e, List.mem_of_find?_eq_some hfind, List.find?_some hfind, rfl, rfl⟩

/-- When no stored dashboard matches, the search falls back to the zero
value: in particular the reused UID is empty. -/
theorem findFirst_of_no_match (s : ServerState) (N Fo : String)
    (h : ¬matchExists s N Fo) :
    FindFirstDashboardByFolderAndName (serverSearch s) N Fo =
      ({} : DashboardSearchResponse) := by
  unfold FindFirstDashboardByFolderAndName serverSearch
  rw [List.find?_map, searchPred_comp]
  cases hfind : s.dashboards.find? (matchCond s N Fo) with
  | none => rfl
  | some e =>
    exfalso
    exact h ⟨e, List.mem_of_find?_eq_some hfind, List.find?_some hfind⟩

/-- The shape of the one import request `provisionDashboard` submits when the
file parses and the search succeeds. -/
theorem provisionDashboard_shape (raw : DashboardJSON)
    (results : List DashboardSearchResponse)
    (imp : DashboardImportRequest → Except String Unit) (cfg : Dashboard)
    (dsUID folderUID : String) :
    ∃ req,
      provisionDashboard (.ok raw) (.ok results) imp cfg dsUID folderUID = (imp req, [req]) ∧
      getStrField req.dashboard "uid" =
        (FindFirstDashboardByFolderAndName results cfg.name cfg.folder).uid ∧
      getStrField req.dashboard "title" = cfg.name ∧
      lookupAssoc req.dashboard "id" =
        some (JsonValue.num (FindFirstDashboardByFolderAndName results cfg.name cfg.folder).id) ∧
      req.folderUID = (if eqFold cfg.folder "General" then "" else folderUID) := by
  have hne1 : (("uid" : String) == "__inputs") = false := by decide
  have hne2 : (("title" : String) == "uid") = false := by decide
  have hne3 : (("title" : String) == "id") = false := by decide
  have hne4 : (("id" : String) == "uid") = false := by decide
  have hne5 : (("id" : String) == "__inputs") = false := by decide
  have hne6 : (("title" : String) == "__inputs") = false := by decide
  set existing := FindFirstDashboardByFolderAndName results cfg.name cfg.folder with hex
  set D : DashboardJSON :=
    setAssoc (setAssoc (setAssoc raw "title" (.str cfg.name)) "id" (.num existing.id))
      "uid" (.str existing.uid) with hD
  have hDuid : getStrField D "uid" = existing.uid := by
    simp [getStrField, hD, lookupAssoc_setAssoc]
  have hDtitle : getStrField D "title" = cfg.name := by
    simp only [getStrField, hD]
    rw [lookupAssoc_setAssoc_ne _ _ _ _ hne2, lookupAssoc_setAssoc_ne _ _ _ _ hne3,
      lookupAssoc_setAssoc]
  have hDid : lookupAssoc D "id" = some (JsonValue.num existing.id) := by
    simp only [hD]
    rw [lookupAssoc_setAssoc_ne _ _ _ _ hne4, lookupAssoc_setAssoc]
  cases hin : lookupAssoc D "__inputs" with
  | some v =>
    cases v with
    | arr inputsSlice =>
      refine ⟨⟨setAssoc D "__inputs"
          (.arr (processInputsInPlace inputsSlice [(cfg.importVar, dsUID)])),
        processInputs inputsSlice [(cfg.importVar, dsUID)],
        (if eqFold cfg.folder "General" then "" else folderUID), true,
        "Automated provisioning by grafana-provisioner"⟩, ?_, ?_, ?_, ?_, rfl⟩
      · simp only [provisionDashboard, ← hex, ← hD, hin]
      · simp only [getStrField]
        rw [lookupAssoc_setAssoc_ne _ _ _ _ hne1]
        exact hDuid
      · simp only [getStrField]
        rw [lookupAssoc_setAssoc_ne _ _ _ _ hne6]
        exact hDtitle
      · rw [lookupAssoc_setAssoc_ne _ _ _ _ hne5]
        exact hDid
    | str v =>
      exact ⟨⟨D, [], (if eqFold cfg.folder "General" then "" else folderUID), true,
        "Automated provisioning by grafana-provisioner"⟩,
        by simp only [provisionDashboard, ← hex, ← hD, hin], hDuid, hDtitle, hDid, rfl⟩
    | num v =>
      exact ⟨⟨D, [], (if eqFold cfg.folder "General" then "" else folderUID), true,
        "Automated provisioning by grafana-provisioner"⟩,
        by simp only [provisionDashboard, ← hex, ← hD, hin], hDuid, hDtitle, hDid, rfl⟩
    | bool v =>
      exact ⟨⟨D, [], (if eqFold cfg.folder "General" then "" else folderUID), true,
        "Automated provisioning by grafana-provisioner"⟩,
        by simp only [provisionDashboard, ← hex, ← hD, hin], hDuid, hDtitle, hDid, rfl⟩
    | null =>
      exact ⟨⟨D, [], (if eqFold cfg.folder "General" then "" else folderUID), true,
        "Automated provisioning by grafana-provisioner"⟩,
        by simp only [provisionDashboard, ← hex, ← hD, hin], hDuid, hDtitle, hDid, rfl⟩
    | obj v =>
      exact ⟨⟨D, [], (if eqFold cfg.folder "General" then "" else folderUID), true,
        "Automated provisioning by grafana-provisioner"⟩,
        by simp only [provisionDashboard, ← hex, ← hD, hin], hDuid, hDtitle, hDid, rfl⟩
  | none =>
    exact ⟨⟨D, [], (if eqFold cfg.folder "General" then "" else folderUID), true,
      "Automated provisioning by grafana-provisioner"⟩,
      by simp only [provisionDashboard, ← hex, ← hD, hin], hDuid, hDtitle, hDid, rfl⟩

theorem folderTitleOf_congr (s s' : ServerState) (h : s'.folders = s.folders) (x : String) :
    folderTitleOf s' x = folderTitleOf s x := by
  unfold folderTitleOf
  rw [h]

theorem matchCond_congr (s s' : ServerState) (h : s'.folders = s.folders) (N Fo : String)
    (e : StoredDashboard) : matchCond s' N Fo e = matchCond s N Fo e := by
  unfold matchCond
  rw [folderTitleOf_congr s s' h]

/-- The facts the reconciler guarantees about an import request submitted for
a dashboard wanting (name, folder) = (Nk, Fok) at state s: the document's
title/uid/id fields come from the name, from the search at s, and the folder
UID is the empty sentinel for "General" or a real folder's UID titled Fok. -/
structure ImportReqOK (s : ServerState) (req : DashboardImportRequest)
    (Nk Fok : String) : Prop where
  titleF : getStrField req.dashboard "title" = Nk
  uidF : getStrField req.dashboard "uid" =
    (FindFirstDashboardByFolderAndName (serverSearch s) Nk Fok).uid
  idF : lookupAssoc req.dashboard "id" =
    some (JsonValue.num (FindFirstDashboardByFolderAndName (serverSearch s) Nk Fok).id)
  fo : (eqFold Fok "General" = true ∧ req.folderUID = "") ∨
       (eqFold Fok "General" = false ∧
        ∃ fr ∈ s.folders, fr.uid = req.folderUID ∧ fr.title = Fok)

/-- The folder-criterion part of `matchCond` holds for the folder title that
the request's folder UID resolves to. -/
theorem reqFolder_crit (s : ServerState) (req : DashboardImportRequest) (Nk Fok : String)
    (hWF : WF s) (hreq : ImportReqOK s req Nk Fok) :
    folderTitleOf s req.folderUID = Fok ∨
      (eqFold Fok "General" = true ∧ (folderTitleOf s req.folderUID = "" ∨
        eqFold (folderTitleOf s req.folderUID) "General" = true)) := by
  rcases hreq.fo with ⟨hgen, hfo⟩ | ⟨hgen, fr, hmem, hu, ht⟩
  · right
    rw [hfo, folderTitleOf_empty s hWF]
    exact ⟨hgen, Or.inl rfl⟩
  · left
    rw [folderTitleOf_uid s hWF fr hmem req.folderUID hu, ht]

/-- One import step of the reconciler: folders and data sources stay, WF is
kept, a match for the imported dashboard's identity now exists, and matches
for every other identity are preserved. -/
theorem import_step (s : ServerState) (req : DashboardImportRequest) (Nk Fok : String)
    (hWF : WF s) (hreq : ImportReqOK s req Nk Fok) :
    (serverImportDashboard s req).2.folders = s.folders ∧
    (serverImportDashboard s req).2.dataSources = s.dataSources ∧
    WF (serverImportDashboard s req).2 ∧
    matchExists (serverImportDashboard s req).2 Nk Fok ∧
    (∀ N Fo, matchExists s N Fo → matchExists (serverImportDashboard s req).2 N Fo) := by
  rcases importDashboard_frame s req with ⟨hfr, hds⟩
  refine ⟨hfr, hds, WF_importDashboard s req hWF, ?_, ?_⟩
  all_goals
    by_cases hc : (getStrField req.dashboard "uid" != "" &&
        s.dashboards.any fun d => d.uid == getStrField req.dashboard "uid") = true
  -- establishment, in-place branch
  · have hmatch : matchExists s Nk Fok := by
      by_contra hno
      have hzero := findFirst_of_no_match s Nk Fok hno
      have : getStrField req.dashboard "uid" = "" := by rw [hreq.uidF, hzero]
      rw [this] at hc
      simp at hc
    rcases findFirst_of_matchExists s Nk Fok hmatch with ⟨e0, hmem0, hcond0, huid0, -⟩
    refine ⟨⟨e0.id, e0.uid, getStrField req.dashboard "title", req.folderUID⟩, ?_, ?_⟩
    · simp only [serverImportDashboard, hc, if_true]
      refine List.mem_map.mpr ⟨e0, hmem0, ?_⟩
      rw [if_pos (by rw [hreq.uidF, huid0]; simp)]
    · rw [matchCond_iff]
      constructor
      · exact hreq.titleF
      · have hcongr : ∀ x, folderTitleOf (serverImportDashboard s req).2 x =
            folderTitleOf s x := folderTitleOf_congr s _ hfr
        rw [hcongr]
        exact reqFolder_crit s req Nk Fok hWF hreq
  -- establishment, append branch
  · refine ⟨⟨Int.ofNat s.nextId, freshUID s.nextId, getStrField req.dashboard "title",
      req.folderUID⟩, ?_, ?_⟩
    · simp only [serverImportDashboard, hc, Bool.false_eq_true, if_false]
      exact List.mem_append.mpr (Or.inr (List.mem_singleton.mpr rfl))
    · rw [matchCond_iff]
      refine ⟨hreq.titleF, ?_⟩
      have hcongr : ∀ x, folderTitleOf (serverImportDashboard s req).2 x =
          folderTitleOf s x := folderTitleOf_congr s _ hfr
      rw [hcongr]
      exact reqFolder_crit s req Nk Fok hWF hreq
  -- preservation, in-place branch
  · intro N Fo hm
    rcases hm with ⟨e, hmem, hcond⟩
    have hcongr : ∀ x, folderTitleOf (serverImportDashboard s req).2 x =
        folderTitleOf s x := folderTitleOf_congr s _ hfr
    by_cases huid : (e.uid == getStrField req.dashboard "uid") = true
    · -- the witness itself is overwritten
      have hmatch : matchExists s Nk Fok := by
        by_contra hno
        have hzero := findFirst_of_no_match s Nk Fok hno
        have : getStrField req.dashboard "uid" = "" := by rw [hreq.uidF, hzero]
        rw [this] at hc
        simp at hc
      rcases findFirst_of_matchExists s Nk Fok hmatch with ⟨e0, hmem0, hcond0, huid0, -⟩
      have hee0 : e = e0 := by
        apply List.inj_on_of_nodup_map hWF.dashNodup hmem hmem0
        rw [beq_iff_eq] at huid
        rw [huid, hreq.uidF, huid0]
      subst hee0
      refine ⟨⟨e.id, e.uid, getStrField req.dashboard "title", req.folderUID⟩, ?_, ?_⟩
      · simp only [serverImportDashboard, hc, if_true]
        exact List.mem_map.mpr ⟨e, hmem, by rw [if_pos huid]⟩
      · rw [matchCond_iff] at hcond hcond0 ⊢
        refine ⟨?_, ?_⟩
        · rw [hreq.titleF, ← hcond0.1, hcond.1]
        · rw [hcongr]
          -- folder casework
          rcases hreq.fo with ⟨hgen, hfo⟩ | ⟨hgen, fr, hmemf, hu, htf⟩
          · rw [hfo, folderTitleOf_empty s hWF]
            by_cases hFoGen : eqFold Fo "General" = true
            · exact Or.inr ⟨hFoGen, Or.inl rfl⟩
            · have hft : folderTitleOf s e.folderUID = Fo := by
                rcases hcond.2 with h | ⟨h, -⟩
                · exact h
                · exact absurd h hFoGen
              rcases hcond0.2 with h0 | ⟨-, h0⟩
              · exfalso
                apply hFoGen
                rw [← hft, h0]
                exact hgen
              · rcases h0 with h0 | h0
                · left
                  rw [← hft, h0]
                · exfalso
                  apply hFoGen
                  rw [← hft]
                  exact h0
          · have hftk : folderTitleOf s e.folderUID = Fok := by
              rcases hcond0.2 with h0 | ⟨hbad, -⟩
              · exact h0
              · exact absurd hbad (by rw [hgen]; exact Bool.false_ne_true)
            rw [folderTitleOf_uid s hWF fr hmemf req.folderUID hu, htf, ← hftk]
            exact hcond.2
    · -- the witness survives unchanged
      refine ⟨e, ?_, ?_⟩
      · simp only [serverImportDashboard, hc, if_true]
        refine List.mem_map.mpr ⟨e, hmem, ?_⟩
        rw [if_neg (by simpa using huid)]
      · rw [matchCond_congr s _ hfr]
        exact hcond
  -- preservation, append branch
  · intro N Fo hm
    rcases hm with ⟨e, hmem, hcond⟩
    refine ⟨e, ?_, ?_⟩
    · simp only [serverImportDashboard, hc, Bool.false_eq_true, if_false]
      exact List.mem_append.mpr (Or.inl hmem)
    · rw [matchCond_congr s _ hfr]
      exact hcond

/-- In the in-place case (a match exists) an import keeps the (id, uid) pairs
of the stored dashboards, and the request's uid/id are those of a stored
dashboard. -/
theorem import_step_inplace (s : ServerState) (req : DashboardImportRequest)
    (Nk Fok : String) (hWF : WF s) (hreq : ImportReqOK s req Nk Fok)
    (hmatch : matchExists s Nk Fok) :
    (serverImportDashboard s req).2.dashboards.map (fun d => (d.id, d.uid)) =
      s.dashboards.map (fun d => (d.id, d.uid)) ∧
    ∃ e ∈ s.dashboards, getStrField req.dashboard "uid" = e.uid ∧
      lookupAssoc req.dashboard "id" = some (JsonValue.num e.id) := by
  rcases findFirst_of_matchExists s Nk Fok hmatch with ⟨e0, hmem0, hcond0, huid0, hid0⟩
  have hu0 : getStrField req.dashboard "uid" = e0.uid := by rw [hreq.uidF, huid0]
  have hne : getStrField req.dashboard "uid" ≠ "" := by
    rw [hu0]
    exact hWF.dashUidNe e0 hmem0
  have hc : (getStrField req.dashboard "uid" != "" &&
      s.dashboards.any fun d => d.uid == getStrField req.dashboard "uid") = true := by
    rw [Bool.and_eq_true]
    constructor
    · simpa using hne
    · rw [List.any_eq_true]
      exact ⟨e0, hmem0, by rw [hu0]; simp⟩
  refine ⟨?_, e0, hmem0, hu0, by rw [hreq.idF, hid0]⟩
  simp only [serverImportDashboard, hc, if_true, List.map_map]
  apply List.map_congr_left
  intro d _
  by_cases hd : (d.uid == getStrField req.dashboard "uid") = true
  · rw [Function.comp_apply, if_pos hd]
  · rw [Function.comp_apply, if_neg (by simpa using hd)]

theorem serverImportDashboard_ok (s : ServerState) (req : DashboardImportRequest) :
    (serverImportDashboard s req).1 = .ok () := by
  by_cases hc : (getStrField req.dashboard "uid" != "" &&
      s.dashboards.any fun d => d.uid == getStrField req.dashboard "uid") = true <;>
    simp [serverImportDashboard, hc]

/-- A successful dashboard step presupposes a parsable file, a resolvable
folder UID, and a known data-source name. -/
theorem dashStep_preconditions (files : String → Except String DashboardJSON)
    (cfg2 : Config) (s : ServerState) (d : Dashboard)
    (hok : (provisionDashboardStepS files cfg2 s d).1 = .ok ()) :
    (∃ doc, files d.file = .ok doc) ∧
    (∃ fu, getDashboardFolderUID cfg2 d = .ok fu) ∧
    (s.dataSources.find? (fun r => r.name == d.dataSource)).isSome = true := by
  unfold provisionDashboardStepS at hok
  cases hfu : getDashboardFolderUID cfg2 d with
  | error e => rw [hfu] at hok; simp at hok
  | ok fu =>
    rw [hfu] at hok
    cases hds : serverGetDataSource s d.dataSource with
    | error e => rw [hds] at hok; simp at hok
    | ok dds =>
      rw [hds] at hok
      cases hfile : files d.file with
      | error e =>
        rw [hfile] at hok
        simp [provisionDashboard] at hok
      | ok doc =>
        refine ⟨⟨doc, rfl⟩, ⟨fu, rfl⟩, ?_⟩
        unfold serverGetDataSource at hds
        cases hf : s.dataSources.find? (fun r => r.name == d.dataSource) with
        | none => rw [hf] at hds; simp at hds
        | some r => rfl

/-- The characterization of one successful dashboard step: the server takes
exactly one import, built as `ImportReqOK` demands. -/
theorem dashStep_char (files : String → Except String DashboardJSON)
    (cfg2 : Config) (s : ServerState) (d : Dashboard)
    (doc : DashboardJSON) (fu : String)
    (hfile : files d.file = .ok doc)
    (hfu : getDashboardFolderUID cfg2 d = .ok fu)
    (hds : (s.dataSources.find? (fun r => r.name == d.dataSource)).isSome = true)
    (hvalid : MappingValid cfg2.foldersMapping s.folders) :
    ∃ req,
      provisionDashboardStepS files cfg2 s d =
        (.ok (), (serverImportDashboard s req).2, [req]) ∧
      ImportReqOK s req d.name d.folder := by
  rcases Option.isSome_iff_exists.mp hds with ⟨dds, hfind⟩
  have hgds : serverGetDataSource s d.dataSource = .ok dds := by
    unfold serverGetDataSource
    rw [hfind]
  rcases provisionDashboard_shape doc (serverSearch s)
      (fun req => (serverImportDashboard s req).1) d dds.uid fu with
    ⟨req, hpd, huid, htitle, hid, hfo⟩
  have himp : (serverImportDashboard s req).1 = .ok () := serverImportDashboard_ok s req
  refine ⟨req, ?_, ?_⟩
  · unfold provisionDashboardStepS
    rw [hfu, hgds, hfile]
    dsimp only
    rw [hpd]
    simp only [himp, List.foldl_cons, List.foldl_nil]
  · refine { titleF := htitle, uidF := huid, idF := hid, fo := ?_ }
    by_cases hgen : eqFold d.folder "General" = true
    · exact Or.inl ⟨hgen, by rw [hfo, if_pos hgen]⟩
    · have hgen' : eqFold d.folder "General" = false := by
        simpa using hgen
      right
      refine ⟨hgen', ?_⟩
      unfold getDashboardFolderUID at hfu
      rw [if_neg (by simp [hgen'])] at hfu
      cases hlk : lookupAssoc cfg2.foldersMapping d.folder with
      | none => rw [hlk] at hfu; simp at hfu
      | some fm =>
        rw [hlk] at hfu
        have hfufm : fu = fm.uid := by
          simpa using hfu.symm
        rcases hvalid d.folder fm hlk with ⟨fr, hmem, hfru, hfrt⟩
        refine ⟨fr, hmem, ?_, hfrt⟩
        rw [hfo, if_neg (by simp [hgen']), hfufm, hfru]

/-- Run-1 shape of the dashboard loop: a successful pass keeps data sources
and folders, keeps well-formedness, preserves existing matches, leaves a
match for every processed dashboard, and presupposes per-dashboard
parsability, data-source resolvability and folder resolvability. -/
theorem dashGo_run1 (files : String → Except String DashboardJSON) (cfg2 : Config) :
    ∀ (ds : List Dashboard) (s : ServerState) (reqs : List DashboardImportRequest),
      WF s →
      MappingValid cfg2.foldersMapping s.folders →
      (provisionDashboardsGo files cfg2 ds s reqs).1 = .ok () →
      (provisionDashboardsGo files cfg2 ds s reqs).2.1.dataSources = s.dataSources ∧
      (provisionDashboardsGo files cfg2 ds s reqs).2.1.folders = s.folders ∧
      WF (provisionDashboardsGo files cfg2 ds s reqs).2.1 ∧
      (∀ N Fo, matchExists s N Fo →
        matchExists (provisionDashboardsGo files cfg2 ds s reqs).2.1 N Fo) ∧
      (∀ d ∈ ds, matchExists (provisionDashboardsGo files cfg2 ds s reqs).2.1 d.name d.folder) ∧
      (∀ d ∈ ds, ∃ doc, files d.file = .ok doc) ∧
      (∀ d ∈ ds, (s.dataSources.find? (fun r => r.name == d.dataSource)).isSome = true) ∧
      (∀ d ∈ ds, ∃ fu, getDashboardFolderUID cfg2 d = .ok fu) := by
  intro ds
  induction ds with
  | nil =>
    intro s reqs hWF hvalid hok
    exact ⟨rfl, rfl, hWF, fun N Fo h => h, by simp, by simp, by simp, by simp⟩
  | cons d rest ih =>
    intro s reqs hWF hvalid hok
    cases hstep1 : (provisionDashboardStepS files cfg2 s d).1 with
    | error e =>
      exfalso
      simp only [provisionDashboardsGo, hstep1] at hok
      exact absurd hok (by simp)
    | ok u =>
      cases u
      rcases dashStep_preconditions files cfg2 s d hstep1 with ⟨⟨doc, hfile⟩, ⟨fu, hfu⟩, hdsl⟩
      rcases dashStep_char files cfg2 s d doc fu hfile hfu hdsl hvalid with ⟨req, hchar, hreqok⟩
      have hunf : provisionDashboardsGo files cfg2 (d :: rest) s reqs =
          provisionDashboardsGo files cfg2 rest (serverImportDashboard s req).2
            (reqs ++ [req]) := by
        simp only [provisionDashboardsGo, hchar]
      rw [hunf] at hok ⊢
      rcases import_step s req d.name d.folder hWF hreqok with
        ⟨hfr, hdsf, hWF', hestab, hpres⟩
      have hvalid' : MappingValid cfg2.foldersMapping
          (serverImportDashboard s req).2.folders := by
        rw [hfr]
        exact hvalid
      rcases ih (serverImportDashboard s req).2 (reqs ++ [req]) hWF' hvalid' hok with
        ⟨g1, g2, g3, g4, g5, g6, g7, g8⟩
      refine ⟨g1.trans hdsf, g2.trans hfr, g3, ?_, ?_, ?_, ?_, ?_⟩
      · intro N Fo h
        exact g4 N Fo (hpres N Fo h)
      · intro d' hd'
        rcases List.mem_cons.mp hd' with rfl | hd'
        · exact g4 d'.name d'.folder hestab
        · exact g5 d' hd'
      · intro d' hd'
        rcases List.mem_cons.mp hd' with rfl | hd'
        · exact ⟨doc, hfile⟩
        · exact g6 d' hd'
      · intro d' hd'
        rcases List.mem_cons.mp hd' with rfl | hd'
        · exact hdsl
        · rw [← hdsf]
          exact g7 d' hd'
      · intro d' hd'
        rcases List.mem_cons.mp hd' with rfl | hd'
        · exact ⟨fu, hfu⟩
        · exact g8 d' hd'

/-- Run-2 shape of the dashboard loop: with every dashboard already matched
on the server and the per-dashboard preconditions available, the loop
succeeds, keeps data sources, folders and the stored (id, uid) pairs, and
every import request it submits reuses a stored dashboard's uid and id. -/
theorem dashGo_run2 (files : String → Except String DashboardJSON) (cfg2 : Config) :
    ∀ (ds : List Dashboard) (s : ServerState) (reqs : List DashboardImportRequest),
      WF s →
      MappingValid cfg2.foldersMapping s.folders →
      (∀ d ∈ ds, ∃ doc, files d.file = .ok doc) →
      (∀ d ∈ ds, (s.dataSources.find? (fun r => r.name == d.dataSource)).isSome = true) →
      (∀ d ∈ ds, ∃ fu, getDashboardFolderUID cfg2 d = .ok fu) →
      (∀ d ∈ ds, matchExists s d.name d.folder) →
      (provisionDashboardsGo files cfg2 ds s reqs).1 = .ok () ∧
      (provisionDashboardsGo files cfg2 ds s reqs).2.1.dataSources = s.dataSources ∧
      (provisionDashboardsGo files cfg2 ds s reqs).2.1.folders = s.folders ∧
      (provisionDashboardsGo files cfg2 ds s reqs).2.1.dashboards.map
          (fun e => (e.id, e.uid)) = s.dashboards.map (fun e => (e.id, e.uid)) ∧
      (∀ req ∈ (provisionDashboardsGo files cfg2 ds s reqs).2.2,
        req ∈ reqs ∨ ∃ e ∈ s.dashboards, getStrField req.dashboard "uid" = e.uid ∧
          lookupAssoc req.dashboard "id" = some (JsonValue.num e.id)) := by
  intro ds
  induction ds with
  | nil =>
    intro s reqs hWF hvalid hfiles hdsl hfus hmatches
    exact ⟨rfl, rfl, rfl, rfl, fun req hreq => Or.inl hreq⟩
  | cons d rest ih =>
    intro s reqs hWF hvalid hfiles hdsl hfus hmatches
    rcases hfiles d (List.mem_cons_self d rest) with ⟨doc, hfile⟩
    rcases hfus d (List.mem_cons_self d rest) with ⟨fu, hfu⟩
    have hdl := hdsl d (List.mem_cons_self d rest)
    rcases dashStep_char files cfg2 s d doc fu hfile hfu hdl hvalid with ⟨req, hchar, hreqok⟩
    have hmatchd := hmatches d (List.mem_cons_self d rest)
    rcases import_step s req d.name d.folder hWF hreqok with ⟨hfr, hdsf, hWF', -, hpres⟩
    rcases import_step_inplace s req d.name d.folder hWF hreqok hmatchd with
      ⟨hpairs, e0, hmem0, hu0, hid0⟩
    have hunf : provisionDashboardsGo files cfg2 (d :: rest) s reqs =
        provisionDashboardsGo files cfg2 rest (serverImportDashboard s req).2
          (reqs ++ [req]) := by
      simp only [provisionDashboardsGo, hchar]
    rw [hunf]
    have hvalid' : MappingValid cfg2.foldersMapping
        (serverImportDashboard s req).2.folders := by
      rw [hfr]
      exact hvalid
    rcases ih (serverImportDashboard s req).2 (reqs ++ [req]) hWF' hvalid'
      (fun d' hd' => hfiles d' (List.mem_cons_of_mem d hd'))
      (fun d' hd' => by rw [hdsf]; exact hdsl d' (List.mem_cons_of_mem d hd'))
      (fun d' hd' => hfus d' (List.mem_cons_of_mem d hd'))
      (fun d' hd' => hpres d'.name d'.folder (hmatches d' (List.mem_cons_of_mem d hd'))) with
      ⟨g1, g2, g3, g4, g5⟩
    refine ⟨g1, g2.trans hdsf, g3.trans hfr, g4.trans hpairs, ?_⟩
    intro req' hreq'
    rcases g5 req' hreq' with hin | ⟨e, hmem, hue, hide⟩
    · rcases List.mem_append.mp hin with hin | hin
      · exact Or.inl hin
      · simp only [List.mem_singleton] at hin
        subst hin
        exact Or.inr ⟨e0, hmem0, hu0, hid0⟩
    · -- transfer the witness through the preserved (id, uid) pairs
      have hpairmem : (e.id, e.uid) ∈ s.dashboards.map (fun x => (x.id, x.uid)) := by
        rw [← hpairs]
        exact List.mem_map_of_mem (fun x => (x.id, x.uid)) hmem
      rcases List.mem_map.mp hpairmem with ⟨e2, hmem2, hpair⟩
      have hpid : e2.id = e.id := congrArg Prod.fst hpair
      have hpuid : e2.uid = e.uid := congrArg Prod.snd hpair
      exact Or.inr ⟨e2, hmem2, by rw [hue, hpuid], by rw [hide, hpid]⟩

/-- The orchestrator unfolded, given that the first two phases succeed. -/
theorem RunProvisioning_eq (files : String → Except String DashboardJSON)
    (cfg : Config) (s : ServerState)
    (resps : List CreateDataSourceResponse)
    (hds : (provisionDataSourcesS s cfg).1 = .ok resps)
    (cfg2 : Config)
    (hf : (provisionFoldersS (provisionDataSourcesS s cfg).2.1 cfg).1 = .ok cfg2) :
    RunProvisioning files cfg s =
      ((match (provisionDashboardsGo files cfg2 cfg2.dashboards
          (provisionFoldersS (provisionDataSourcesS s cfg).2.1 cfg).2.1 []).1 with
        | .error e => .error ("dashboard provisioning failed: " ++ e)
        | .ok _ => .ok ()),
       (provisionDashboardsGo files cfg2 cfg2.dashboards
          (provisionFoldersS (provisionDataSourcesS s cfg).2.1 cfg).2.1 []).2.1,
       ⟨(provisionDataSourcesS s cfg).2.2,
        (provisionFoldersS (provisionDataSourcesS s cfg).2.1 cfg).2.2,
        (provisionDashboardsGo files cfg2 cfg2.dashboards
          (provisionFoldersS (provisionDataSourcesS s cfg).2.1 cfg).2.1 []).2.2⟩) := by
  unfold RunProvisioning
  dsimp only
  rw [hds]
  dsimp only
  rw [hf]
  dsimp only
  cases hrd : (provisionDashboardsGo files cfg2 cfg2.dashboards
      (provisionFoldersS (provisionDataSourcesS s cfg).2.1 cfg).2.1 []).1 <;> simp [hrd]

/-- Folder-UID resolution succeeds under any mapping with the same keys. -/
theorem getDashboardFolderUID_ok_of_keys (cfgA cfgB : Config) (d : Dashboard)
    (hkeys : ∀ t, (lookupAssoc cfgA.foldersMapping t).isSome = true ↔
      (lookupAssoc cfgB.foldersMapping t).isSome = true)
    (h : ∃ fu, getDashboardFolderUID cfgA d = .ok fu) :
    ∃ fu, getDashboardFolderUID cfgB d = .ok fu := by
  by_cases hgen : eqFold d.folder "General" = true
  · unfold getDashboardFolderUID
    rw [if_pos (by simp [hgen])]
    cases lookupAssoc cfgB.foldersMapping "General" with
    | some mapping => exact ⟨mapping.uid, rfl⟩
    | none => exact ⟨"", rfl⟩
  · rcases h with ⟨fu, hfu⟩
    unfold getDashboardFolderUID at hfu ⊢
    rw [if_neg (by simp [hgen])] at hfu ⊢
    cases hlkA : lookupAssoc cfgA.foldersMapping d.folder with
    | none => rw [hlkA] at hfu; simp at hfu
    | some fm =>
      have hsomeB : (lookupAssoc cfgB.foldersMapping d.folder).isSome = true :=
        (hkeys d.folder).mp (by rw [hlkA]; rfl)
      rcases Option.isSome_iff_exists.mp hsomeB with ⟨fm2, hlkB⟩
      rw [hlkB]
      exact ⟨fm2.uid, rfl⟩

def dsA9 : DataSource := { name := "m", type := "grafana-postgresql-datasource", url := "u1:5432", database := "d" }

def dsB9 : DataSource := { name := "m", type := "grafana-postgresql-datasource", url := "u2:5432", database := "d" }

def cfg9 : Config := { dataSources := [dsA9, dsB9] }

def files9 : String → Except String DashboardJSON := fun _ => Except.error "no file"

/-- Claim C9 counterexample: two desired data sources that share the name
`m` but point at different connections. The first run creates `m`, then the
second desired source resolves against the stale pre-fetched (empty) list,
also picks the name `m`, receives a 409 from the server, and the 409 is
swallowed as success — so the first run reports success having created only
one data source. The second run pre-fetches the real list, finds no
connection match for the second source, resolves the collision to `m_1`, and
creates it: it issues a data-source creation request and the state changes,
refuting unconditional idempotence. -/
theorem C9_counterexample :
    (RunProvisioning files9 cfg9 {}).1 = .ok () ∧
    (RunProvisioning files9 cfg9 {}).2.1.dataSources.length = 1 ∧
    (RunProvisioning files9 cfg9
        (RunProvisioning files9 cfg9 {}).2.1).2.2.dsRequests.length = 1 ∧
    (RunProvisioning files9 cfg9
        (RunProvisioning files9 cfg9 {}).2.1).2.1.dataSources.length = 2 :=
  ⟨rfl, rfl, rfl, rfl⟩

def cfgW9 : Config := { dataSources := [dsA9] }

/-- Claim C9 (amended): under (i) a well-formed initial server state, (ii)
every desired data source carrying the fixed postgres type (as `main.go`
builds them), (iii) a successful first run, and (iv) pairwise-distinct
resolved creation names among the first run's data-source requests, a second
run against the state the first run left behind succeeds, issues no
data-source and no folder creation request, leaves the data sources, the
folders, and the stored dashboards' identifier/UID pairs unchanged, and
every import request it submits carries the UID and id of a dashboard
already stored after the first run. -/
theorem C9_rerun_idempotent (files : String → Except String DashboardJSON)
    (cfg : Config) (s0 : ServerState)
    (hWF : WF s0)
    (htype : ∀ d ∈ cfg.dataSources, d.type = "grafana-postgresql-datasource")
    (hok1 : (RunProvisioning files cfg s0).1 = .ok ())
    (hnodup : (((RunProvisioning files cfg s0).2.2.dsRequests).map (fun m => m.name)).Nodup) :
    (RunProvisioning files cfg (RunProvisioning files cfg s0).2.1).1 = .ok () ∧
    (RunProvisioning files cfg (RunProvisioning files cfg s0).2.1).2.2.dsRequests = [] ∧
    (RunProvisioning files cfg (RunProvisioning files cfg s0).2.1).2.2.folderRequests = [] ∧
    (RunProvisioning files cfg (RunProvisioning files cfg s0).2.1).2.1.dataSources =
      (RunProvisioning files cfg s0).2.1.dataSources ∧
    (RunProvisioning files cfg (RunProvisioning files cfg s0).2.1).2.1.folders =
      (RunProvisioning files cfg s0).2.1.folders ∧
    (RunProvisioning files cfg (RunProvisioning files cfg s0).2.1).2.1.dashboards.map
        (fun e => (e.id, e.uid)) =
      (RunProvisioning files cfg s0).2.1.dashboards.map (fun e => (e.id, e.uid)) ∧
    (∀ req ∈ (RunProvisioning files cfg
        (RunProvisioning files cfg s0).2.1).2.2.importRequests,
      ∃ e ∈ (RunProvisioning files cfg s0).2.1.dashboards,
        getStrField req.dashboard "uid" = e.uid ∧
        lookupAssoc req.dashboard "id" = some (JsonValue.num e.id)) := by
  -- run 1: the data-source phase
  obtain ⟨⟨resps1, hds1ok⟩, hreq1⟩ :=
    provisionDataSourcesGo_spec cfg.dataSources s0.dataSources s0 [] []
  have hds1ok' : (provisionDataSourcesS s0 cfg).1 = .ok resps1 := hds1ok
  have hreq1' : (provisionDataSourcesS s0 cfg).2.2 =
      dataSourceRequests s0.dataSources cfg.dataSources := by
    simpa using hreq1
  have hdsframe := dsGo_frame s0.dataSources cfg.dataSources s0 [] []
  have hsdsfolders : (provisionDataSourcesS s0 cfg).2.1.folders = s0.folders := hdsframe.1
  have hsdsdash : (provisionDataSourcesS s0 cfg).2.1.dashboards = s0.dashboards :=
    hdsframe.2.1
  have hWFsds : WF (provisionDataSourcesS s0 cfg).2.1 := hdsframe.2.2 hWF
  -- run 1: the folder phase
  have hvalid0 : MappingValid
      (Config.mk cfg.dataSources cfg.folders cfg.dashboards []).foldersMapping
      (provisionDataSourcesS s0 cfg).2.1.folders := by
    intro t fm h
    simp [lookupAssoc] at h
  obtain ⟨cfg2, newFolders, hfok, hffold, hfds, hfdash, hfWF, hfcov, hfkeys, hfvalid,
    hcds, hcfolders, hcdash⟩ :=
    folderGo_run1 cfg.folders (Config.mk cfg.dataSources cfg.folders cfg.dashboards [])
      (provisionDataSourcesS s0 cfg).2.1 [] hvalid0
  have hf1 : (provisionFoldersS (provisionDataSourcesS s0 cfg).2.1 cfg).1 = .ok cfg2 := hfok
  have hrun1 := RunProvisioning_eq files cfg s0 resps1 hds1ok' cfg2 hf1
  -- run 1: the dashboard phase
  have hrd1ok : (provisionDashboardsGo files cfg2 cfg2.dashboards
      (provisionFoldersS (provisionDataSourcesS s0 cfg).2.1 cfg).2.1 []).1 = .ok () := by
    rw [hrun1] at hok1
    dsimp only at hok1
    cases hcase : (provisionDashboardsGo files cfg2 cfg2.dashboards
        (provisionFoldersS (provisionDataSourcesS s0 cfg).2.1 cfg).2.1 []).1 with
    | error e => rw [hcase] at hok1; simp at hok1
    | ok u => cases u; rfl
  have hnodup' : ((dataSourceRequests s0.dataSources cfg.dataSources).map
      (fun m => m.name)).Nodup := by
    rw [hrun1] at hnodup
    dsimp only at hnodup
    rwa [hreq1'] at hnodup
  -- run 1: data-source coverage
  obtain ⟨extra2, hdsEq, hextra2, hcovfun⟩ :=
    dsGo_run1 s0.dataSources cfg.dataSources s0 [] [] [] (by simp) (by simp) hnodup' htype
  have hWFsf1 : WF (provisionFoldersS (provisionDataSourcesS s0 cfg).2.1 cfg).2.1 :=
    hfWF hWFsds
  obtain ⟨g1, g2, g3, g4, g5, g6, g7, g8⟩ :=
    dashGo_run1 files cfg2 cfg2.dashboards
      (provisionFoldersS (provisionDataSourcesS s0 cfg).2.1 cfg).2.1 [] hWFsf1 hfvalid hrd1ok
  -- the state after run 1
  set S1 := (RunProvisioning files cfg s0).2.1 with hS1
  have hS1eq : S1 = (provisionDashboardsGo files cfg2 cfg2.dashboards
      (provisionFoldersS (provisionDataSourcesS s0 cfg).2.1 cfg).2.1 []).2.1 := by
    rw [hS1, hrun1]
  have hS1ds : S1.dataSources = (provisionDataSourcesS s0 cfg).2.1.dataSources := by
    rw [hS1eq]
    exact g1.trans hfds
  have hS1folders : S1.folders =
      (provisionFoldersS (provisionDataSourcesS s0 cfg).2.1 cfg).2.1.folders := by
    rw [hS1eq, g2]
  have hWFS1 : WF S1 := by rw [hS1eq]; exact g3
  -- run 2: the data-source phase finds every connection
  have hcov2 : ∀ d ∈ cfg.dataSources,
      (findExistingByConnection d S1.dataSources).isSome = true := by
    intro d hd
    rcases hcovfun d hd with ⟨r, hrmem, h1, h2, h3⟩
    rw [findExistingByConnection_isSome_iff]
    exact ⟨r, by rw [hS1ds]; exact hrmem, h1, h2, h3⟩
  obtain ⟨resps2, hgo2⟩ := dsGo_run2 cfg.dataSources S1.dataSources S1 [] [] hcov2
  have hds2 : (provisionDataSourcesS S1 cfg).1 = .ok resps2 := by
    have := congrArg (fun p => p.1) hgo2
    exact this
  have hdsstate2 : (provisionDataSourcesS S1 cfg).2.1 = S1 := by
    have := congrArg (fun p => p.2.1) hgo2
    exact this
  have hdstrace2 : (provisionDataSourcesS S1 cfg).2.2 = [] := by
    have := congrArg (fun p => p.2.2) hgo2
    exact this
  -- run 2: the folder phase finds every folder
  have hfcov2 : ∀ fl ∈ cfg.folders, ∃ fr ∈ S1.folders, fr.title = fl.name := by
    intro fl hfl
    rcases hfcov fl hfl with ⟨fr, hmem, ht⟩
    exact ⟨fr, by rw [hS1folders]; exact hmem, ht⟩
  have hvalid0b : MappingValid
      (Config.mk cfg.dataSources cfg.folders cfg.dashboards []).foldersMapping S1.folders := by
    intro t fm h
    simp [lookupAssoc] at h
  obtain ⟨cfg2b, hfgo2, hkeys2, hvalid2b, hcds2, hcfol2, hcdash2⟩ :=
    folderGo_run2 cfg.folders (Config.mk cfg.dataSources cfg.folders cfg.dashboards [])
      S1 [] hfcov2 hvalid0b
  have hf2full : provisionFoldersS (provisionDataSourcesS S1 cfg).2.1 cfg =
      (.ok cfg2b, S1, []) := by
    rw [hdsstate2]
    exact hfgo2
  have hf2 : (provisionFoldersS (provisionDataSourcesS S1 cfg).2.1 cfg).1 = .ok cfg2b := by
    rw [hf2full]
  have hfstate2 : (provisionFoldersS (provisionDataSourcesS S1 cfg).2.1 cfg).2.1 = S1 := by
    rw [hf2full]
  have hftrace2 : (provisionFoldersS (provisionDataSourcesS S1 cfg).2.1 cfg).2.2 = [] := by
    rw [hf2full]
  -- run 2: the dashboard phase
  have hkeysAB : ∀ t, (lookupAssoc cfg2.foldersMapping t).isSome = true ↔
      (lookupAssoc cfg2b.foldersMapping t).isSome = true := by
    intro t
    rw [hfkeys t, hkeys2 t]
  obtain ⟨k1, k2, k3, k4, k5⟩ :=
    dashGo_run2 files cfg2b cfg2b.dashboards S1 [] hWFS1 hvalid2b
      (fun d hd => g6 d (by rw [hcdash]; rw [hcdash2] at hd; exact hd))
      (fun d hd => by
        rw [hS1ds, ← hfds]
        exact g7 d (by rw [hcdash]; rw [hcdash2] at hd; exact hd))
      (fun d hd => getDashboardFolderUID_ok_of_keys cfg2 cfg2b d hkeysAB
        (g8 d (by rw [hcdash]; rw [hcdash2] at hd; exact hd)))
      (fun d hd => by
        rw [← hS1eq] at g5
        exact g5 d (by rw [hcdash]; rw [hcdash2] at hd; exact hd))
  have hrun2 := RunProvisioning_eq files cfg S1 resps2 hds2 cfg2b hf2
  rw [hrun2]
  dsimp only
  rw [hfstate2, hdstrace2, hftrace2]
  refine ⟨by rw [k1], rfl, rfl, by rw [k2], by rw [k3], by rw [k4], ?_⟩
  intro req hreq
  rcases k5 req hreq with hin | h
  · simp at hin
  · exact h

/-- Witness for the amended claim C9: one postgres data source over the empty
server; the first run succeeds with pairwise-distinct resolved names, and the
amended theorem yields that the second run succeeds and issues no
data-source creation request. -/
theorem C9_witness :
    (RunProvisioning files9 cfgW9
        (RunProvisioning files9 cfgW9 {}).2.1).1 = .ok () ∧
    (RunProvisioning files9 cfgW9
        (RunProvisioning files9 cfgW9 {}).2.1).2.2.dsRequests = [] := by
  have h := C9_rerun_idempotent files9 cfgW9 {} (by constructor <;> simp)
    (by decide) rfl (by decide)
  exact ⟨h.1, h.2.1⟩

end Grafana
